import Mathlib

/-!
Verification of the BidMonitor monitoring pipeline: keyword matching engine,
deduplicating storage, fetch/crawl failure handling, AI relevance guard,
notification fanout and round orchestration, embedded shallowly from the
Python sources.
-/

set_option maxRecDepth 4000

namespace BidMonitor

/-! ## String model

Python `str` values are modelled by Lean `String`; Python's substring test
`needle in haystack` is `strContains haystack needle` over the code-point
lists, and `str.lower()` is `lowerStr` (character-wise lowercasing, which
agrees with Python on the ASCII and CJK texts the program handles). -/

/-- Does `hay` start with `ned`? (list-of-character version of Python slicing). -/
def leadsWith : List Char → List Char → Bool
  | [], _ => true
  | _ :: _, [] => false
  | a :: as, b :: bs => a == b && leadsWith as bs

/-- Python `ned in hay` over code-point lists: `ned` occurs contiguously in `hay`. -/
def listContains (hay ned : List Char) : Bool :=
  match hay with
  | [] => ned == []
  | _ :: t => leadsWith ned hay || listContains t ned

/-- Python `ned in hay` for strings. -/
def strContains (hay ned : String) : Bool :=
  listContains hay.toList ned.toList

/-- Python `s.lower()` (character-wise). -/
def lowerStr (s : String) : String :=
  String.mk (s.toList.map Char.toLower)

/-! ## Keyword matching engine (`src/matcher/keyword.py`) -/

/-- Result of one classification (`MatchResult` dataclass). -/
structure MatchResult where
  matched : Bool
  matched_keywords : List String
  excluded_by : Option String := none
  deriving Repr, DecidableEq

/-- `KeywordMatcher` state: the three keyword lists, already lowercased by
`__init__`. -/
structure KeywordMatcher where
  include_keywords : List String
  exclude_keywords : List String
  must_contain_keywords : List String
  deriving Repr, DecidableEq

/-- `KeywordMatcher.__init__`: stores the keyword lists lowercased.
`exclude_keywords or []` / `must_contain_keywords or []` in the source allow the
optional lists to be absent; callers pass the possibly-empty lists here. -/
def KeywordMatcher.init (inc exc must : List String) : KeywordMatcher :=
  ⟨inc.map lowerStr, exc.map lowerStr, must.map lowerStr⟩

/-- `KeywordMatcher.match`: (1) empty text never matches; (2) first exclude
keyword occurring in the lowercased text short-circuits to not-matched with
`excluded_by` set; (3) if `must_contain_keywords` is non-empty and none occurs,
not-matched; (4) otherwise collect the include keywords that occur, then append
the occurring must-contain keywords not already collected; matched iff the
collected list is non-empty. -/
def KeywordMatcher.«match» (m : KeywordMatcher) (text : String) : MatchResult :=
  if text = "" then ⟨false, [], none⟩
  else
    let text_lower := lowerStr text
    match m.exclude_keywords.find? (fun kw => strContains text_lower kw) with
    | some kw => ⟨false, [], some kw⟩
    | none =>
      if !m.must_contain_keywords.isEmpty &&
          !m.must_contain_keywords.any (fun kw => strContains text_lower kw) then
        ⟨false, [], none⟩
      else
        let base := m.include_keywords.filter (fun kw => strContains text_lower kw)
        let mk := m.must_contain_keywords.foldl
          (fun acc kw =>
            if strContains text_lower kw && !acc.contains kw then acc ++ [kw] else acc)
          base
        ⟨!mk.isEmpty, mk, none⟩

/-- `KeywordMatcher.match_any`: classifies several texts, accumulating matched
keywords across them; a (truthy, i.e. non-empty-string) `excluded_by` on any
text excludes the whole result.  Python deduplicates via `list(set(...))`,
whose order is unspecified; the model uses `List.dedup`. -/
def KeywordMatcher.match_any (m : KeywordMatcher) (texts : List String) : MatchResult :=
  let acc := texts.foldl
    (fun (p : List String × Option String) t =>
      let r := m.«match» t
      let ex := match r.excluded_by with
        | some s => if s = "" then p.2 else some s
        | none => p.2
      (p.1 ++ r.matched_keywords, ex))
    ([], none)
  let all := acc.1.dedup
  match acc.2 with
  | some s => ⟨false, [], some s⟩
  | none => ⟨!all.isEmpty, all, none⟩

/-! ## MD5 (Python `hashlib.md5(url.encode()).hexdigest()`)

`BidInfo.unique_id` is the lowercase hex MD5 digest of the UTF-8 encoding of
the record's URL; the digest is implemented here over byte lists with 32-bit
arithmetic carried out in `Nat` modulo `2 ^ 32`. -/

/-- UTF-8 encoding of one code point. -/
def utf8Char (n : Nat) : List Nat :=
  if n < 128 then [n]
  else if n < 2048 then [192 + n / 64, 128 + n % 64]
  else if n < 65536 then [224 + n / 4096, 128 + n / 64 % 64, 128 + n % 64]
  else [240 + n / 262144, 128 + n / 4096 % 64, 128 + n / 64 % 64, 128 + n % 64]

/-- UTF-8 encoding of a string (Python `s.encode()`). -/
def utf8Bytes (s : String) : List Nat :=
  s.toList.flatMap (fun c => utf8Char c.toNat)

/-- The 64 MD5 sine-table constants. -/
def md5K : List Nat :=
  [0xd76aa478, 0xe8c7b756, 0x242070db, 0xc1bdceee,
   0xf57c0faf, 0x4787c62a, 0xa8304613, 0xfd469501,
   0x698098d8, 0x8b44f7af, 0xffff5bb1, 0x895cd7be,
   0x6b901122, 0xfd987193, 0xa679438e, 0x49b40821,
   0xf61e2562, 0xc040b340, 0x265e5a51, 0xe9b6c7aa,
   0xd62f105d, 0x02441453, 0xd8a1e681, 0xe7d3fbc8,
   0x21e1cde6, 0xc33707d6, 0xf4d50d87, 0x455a14ed,
   0xa9e3e905, 0xfcefa3f8, 0x676f02d9, 0x8d2a4c8a,
   0xfffa3942, 0x8771f681, 0x6d9d6122, 0xfde5380c,
   0xa4beea44, 0x4bdecfa9, 0xf6bb4b60, 0xbebfbc70,
   0x289b7ec6, 0xeaa127fa, 0xd4ef3085, 0x04881d05,
   0xd9d4d039, 0xe6db99e5, 0x1fa27cf8, 0xc4ac5665,
   0xf4292244, 0x432aff97, 0xab9423a7, 0xfc93a039,
   0x655b59c3, 0x8f0ccc92, 0xffeff47d, 0x85845dd1,
   0x6fa87e4f, 0xfe2ce6e0, 0xa3014314, 0x4e0811a1,
   0xf7537e82, 0xbd3af235, 0x2ad7d2bb, 0xeb86d391]

/-- Per-step left-rotation amounts. -/
def md5S : List Nat :=
  [7, 12, 17, 22, 7, 12, 17, 22, 7, 12, 17, 22, 7, 12, 17, 22,
   5, 9, 14, 20, 5, 9, 14, 20, 5, 9, 14, 20, 5, 9, 14, 20,
   4, 11, 16, 23, 4, 11, 16, 23, 4, 11, 16, 23, 4, 11, 16, 23,
   6, 10, 15, 21, 6, 10, 15, 21, 6, 10, 15, 21, 6, 10, 15, 21]

/-- 32-bit left rotation (arguments below `2 ^ 32`). -/
def rotl32 (x s : Nat) : Nat :=
  x * 2 ^ s % 2 ^ 32 + x / 2 ^ (32 - s)

/-- The four MD5 round functions, selected by step index. -/
def md5F (i b c d : Nat) : Nat :=
  if i < 16 then b &&& c ||| (4294967295 - b) &&& d
  else if i < 32 then d &&& b ||| (4294967295 - d) &&& c
  else if i < 48 then b ^^^ c ^^^ d
  else c ^^^ (b ||| (4294967295 - d))

/-- Little-endian 32-bit word `j` of a 64-byte chunk. -/
def leWord (bs : List Nat) (j : Nat) : Nat :=
  bs.getD (4 * j) 0 + 256 * bs.getD (4 * j + 1) 0 +
    65536 * bs.getD (4 * j + 2) 0 + 16777216 * bs.getD (4 * j + 3) 0

/-- One of the 64 MD5 steps on state `(a, b, c, d)`. -/
def md5Round (M : List Nat) (st : Nat × Nat × Nat × Nat) (i : Nat) : Nat × Nat × Nat × Nat :=
  let (a, b, c, d) := st
  let f := md5F i b c d
  let g := if i < 16 then i
    else if i < 32 then (5 * i + 1) % 16
    else if i < 48 then (3 * i + 5) % 16
    else 7 * i % 16
  let r := rotl32 ((a + f + md5K.getD i 0 + M.getD g 0) % 2 ^ 32) (md5S.getD i 0)
  (d, (b + r) % 2 ^ 32, b, c)

/-- Process one 64-byte chunk. -/
def md5Chunk (st : Nat × Nat × Nat × Nat) (chunk : List Nat) : Nat × Nat × Nat × Nat :=
  let M := (List.range 16).map (leWord chunk)
  let s := (List.range 64).foldl (md5Round M) st
  ((st.1 + s.1) % 2 ^ 32, (st.2.1 + s.2.1) % 2 ^ 32,
   (st.2.2.1 + s.2.2.1) % 2 ^ 32, (st.2.2.2 + s.2.2.2) % 2 ^ 32)

/-- MD5 padding: `0x80`, zeros to 56 mod 64, then the 64-bit little-endian
bit length. -/
def md5Pad (msg : List Nat) : List Nat :=
  msg ++ [128] ++ List.replicate ((120 - (msg.length + 1) % 64) % 64) 0 ++
    (List.range 8).map (fun i => 8 * msg.length % 2 ^ 64 / 2 ^ (8 * i) % 256)

/-- MD5 digest of a byte list, as 16 bytes. -/
def md5Digest (msg : List Nat) : List Nat :=
  let padded := md5Pad msg
  let chunks := (List.range (padded.length / 64)).map
    (fun k => (padded.drop (64 * k)).take 64)
  let s := chunks.foldl md5Chunk (0x67452301, 0xefcdab89, 0x98badcfe, 0x10325476)
  [s.1, s.2.1, s.2.2.1, s.2.2.2].flatMap
    (fun w => (List.range 4).map (fun i => w / 2 ^ (8 * i) % 256))

/-- The sixteen lowercase hex digits. -/
def hexDigit (n : Nat) : Char :=
  "0123456789abcdef".toList.getD n '0'

/-- Lowercase hex MD5 digest (Python `hashlib.md5(msg).hexdigest()`). -/
def md5Hex (msg : List Nat) : String :=
  String.mk ((md5Digest msg).flatMap (fun b => [hexDigit (b / 16), hexDigit (b % 16)]))

/-! ## Storage (`src/database/storage.py`)

The SQLite table `bids` is modelled as a list of rows in rowid (insertion)
order; `created_at` (filled by SQLite's `CURRENT_TIMESTAMP` default) is a
numeric timestamp supplied by the caller at insertion time.  A `SELECT`
without `ORDER BY` scans the table in rowid order; `ORDER BY created_at DESC`
is modelled by a stable merge sort on the timestamp. -/

/-- The `BidInfo` dataclass. -/
structure BidInfo where
  title : String
  url : String
  publish_date : String
  source : String
  content : String := ""
  purchaser : String := ""
  deriving Repr, DecidableEq

/-- `BidInfo.unique_id`: MD5 hex digest of the UTF-8 encoded URL. -/
def BidInfo.unique_id (b : BidInfo) : String :=
  md5Hex (utf8Bytes b.url)

/-- One row of the `bids` table (the autoincrement `id` is the list position). -/
structure BidRow where
  unique_id : String
  title : String
  url : String
  publish_date : String
  source : String
  content : String
  purchaser : String
  notified : Bool
  created_at : Nat
  deriving Repr, DecidableEq

/-- The record a row round-trips to on the read paths. -/
def BidRow.toBidInfo (r : BidRow) : BidInfo :=
  ⟨r.title, r.url, r.publish_date, r.source, r.content, r.purchaser⟩

/-- The state of one `Storage` database. -/
structure StorageState where
  rows : List BidRow
  deriving Repr, DecidableEq

/-- `Storage.exists`: `SELECT 1 FROM bids WHERE unique_id = ?`. -/
def StorageState.existsBid (st : StorageState) (bid : BidInfo) : Bool :=
  st.rows.any (fun r => r.unique_id == bid.unique_id)

/-- `Storage.save`: returns `false` if a row with the record's `unique_id`
exists, otherwise inserts a new row (notified flag as given, default false)
and returns `true`.  `now` stands for SQLite's `CURRENT_TIMESTAMP`. -/
def StorageState.save (st : StorageState) (bid : BidInfo) (notified : Bool) (now : Nat) :
    Bool × StorageState :=
  if st.existsBid bid then (false, st)
  else
    (true, ⟨st.rows ++ [⟨bid.unique_id, bid.title, bid.url, bid.publish_date,
      bid.source, bid.content, bid.purchaser, notified, now⟩]⟩)

/-- `UPDATE bids SET notified = 1 WHERE unique_id = ?`. -/
def setNotified (rows : List BidRow) (uid : String) : List BidRow :=
  rows.map (fun r => if r.unique_id == uid then { r with notified := true } else r)

/-- The three shapes `Storage.mark_notified` dispatches on: a single
`BidInfo`, a list of `BidInfo`s, or a list of URL strings. -/
inductive MarkArg where
  | single (bid : BidInfo)
  | bidList (bids : List BidInfo)
  | urlList (urls : List String)
  deriving Repr

/-- `Storage.mark_notified`: one `UPDATE` per element; for a URL the
`unique_id` is recomputed as the MD5 of the URL; an empty list is a no-op. -/
def StorageState.mark_notified (st : StorageState) : MarkArg → StorageState
  | .single bid => ⟨setNotified st.rows bid.unique_id⟩
  | .bidList bids => ⟨bids.foldl (fun rs b => setNotified rs b.unique_id) st.rows⟩
  | .urlList urls => ⟨urls.foldl (fun rs u => setNotified rs (md5Hex (utf8Bytes u))) st.rows⟩

/-- `Storage.get_unnotified`: `SELECT … WHERE notified = 0` with no
`ORDER BY` — rowid (insertion) order. -/
def StorageState.get_unnotified (st : StorageState) : List BidInfo :=
  (st.rows.filter (fun r => !r.notified)).map BidRow.toBidInfo

/-- `Storage.get_all`: `SELECT … ORDER BY created_at DESC`. -/
def StorageState.get_all (st : StorageState) : List BidInfo :=
  (st.rows.mergeSort (fun a b => b.created_at ≤ a.created_at)).map BidRow.toBidInfo

/-- `Storage.count_all`: `SELECT COUNT(*) FROM bids`. -/
def StorageState.count_all (st : StorageState) : Nat :=
  st.rows.length

/-! ## Crawler base (`src/crawler/base.py`)

`BaseCrawler.fetch` is embedded at attempt granularity: the network's
behaviour on attempt `i` is an oracle value of type `AttemptR`, one
constructor per `except` arm of the source.  `BaseCrawler.crawl` is embedded
at URL granularity: per URL the environment provides the result of `fetch`
and the behaviour of the adapter's `parse`. -/

/-- Result of one `session.get` attempt inside `fetch`: a body, or one of the
exception classes the source catches (`SSLError`, `Timeout`,
`ConnectionError`, `HTTPError` with the response's status code when a
response is attached, or a generic `RequestException`). -/
inductive AttemptR where
  | ok (html : String)
  | sslErr
  | timeoutErr
  | connErr
  | httpErr (status : Option Nat)
  | reqErr
  deriving Repr, DecidableEq

/-- Did this attempt outcome return the page body? -/
def AttemptR.succeeds : AttemptR → Bool
  | .ok _ => true
  | _ => false

/-- Does this attempt outcome hit the `status_code in [401, 403]` early
return (no retry)? -/
def AttemptR.denies : AttemptR → Bool
  | .httpErr s => s == some 401 || s == some 403
  | _ => false

/-- The retry loop of `BaseCrawler.fetch` from attempt `i` on: a successful
GET returns the body after the politeness delay; an `HTTPError` with status
401 or 403 returns `None` immediately; every other caught exception falls
through to the backoff and the next attempt; after `max_retries` attempts the
loop ends and `fetch` returns `None`.  The second component counts the
attempts made. -/
def fetchFrom (att : Nat → AttemptR) (max_retries i : Nat) : Option String × Nat :=
  if _h : i < max_retries then
    match att i with
    | .ok html => (some html, i + 1)
    | .httpErr s =>
      if s = some 401 ∨ s = some 403 then (none, i + 1)
      else fetchFrom att max_retries (i + 1)
    | _ => fetchFrom att max_retries (i + 1)
  else (none, i)
termination_by max_retries - i

/-- `BaseCrawler.fetch` for a URL whose attempt outcomes are `att`, with the
attempt count it performed. -/
def fetchModel (att : Nat → AttemptR) (max_retries : Nat) : Option String × Nat :=
  fetchFrom att max_retries 0

/-- The anti-crawler block signatures of `BaseCrawler._is_blocked`. -/
def blocked_signs : List String :=
  ["访问频繁", "请求过于频繁", "验证码", "captcha",
   "请稍后重试", "访问被拒绝", "Access Denied",
   "403 Forbidden", "请求被禁止", "IP被封"]

/-- `BaseCrawler._is_blocked`: some lowercased signature occurs in the
lowercased page. -/
def is_blocked (html : String) : Bool :=
  blocked_signs.any (fun sign => strContains (lowerStr html) (lowerStr sign))

/-- Per-adapter crawl environment: the adapter's URL list
(`get_list_urls()`), the result of `fetch` for the URL at each index, and the
behaviour of the adapter's `parse` on a page fetched at each index
(`Except.error` stands for `parse` raising). -/
structure CrawlEnv where
  urls : List String
  fetchR : Nat → Option String
  parseR : Nat → String → Except Unit (List BidInfo)

/-- Did the URL at index `i` fail for `crawl` (fetch returned `None`, the
page matched a block signature, or `parse` raised)? -/
def urlFailed (env : CrawlEnv) (i : Nat) : Bool :=
  match env.fetchR i with
  | none => true
  | some html =>
    is_blocked html ||
      match env.parseR i html with
      | .error _ => true
      | .ok _ => false

/-- The records the URL at index `i` contributes (empty when it failed). -/
def urlBids (env : CrawlEnv) (i : Nat) : List BidInfo :=
  match env.fetchR i with
  | none => []
  | some html =>
    if is_blocked html then []
    else
      match env.parseR i html with
      | .error _ => []
      | .ok bids => bids

/-- The URL loop of `BaseCrawler.crawl` from index `i`, carrying the
accumulated records and failure count; `sig i` is the state of
`stop_event.is_set()` polled at the top of iteration `i`, and a set signal
breaks out of the loop.  Returns `(all_bids, failed_count, visited)` where
`visited` counts the URLs actually processed. -/
def crawlFrom (env : CrawlEnv) (sig : Nat → Bool) (i : Nat) (acc : List BidInfo)
    (failed : Nat) : List BidInfo × Nat × Nat :=
  if _h : i < env.urls.length then
    if sig i then (acc, failed, i)
    else if urlFailed env i then crawlFrom env sig (i + 1) acc (failed + 1)
    else crawlFrom env sig (i + 1) (acc ++ urlBids env i) failed
  else (acc, failed, i)
termination_by env.urls.length - i

/-- `BaseCrawler.crawl`: runs the URL loop, then returns `None` exactly when
`failed_count == len(urls)` and the URL list is non-empty, and the collected
records otherwise. -/
def crawlModel (env : CrawlEnv) (sig : Nat → Bool) : Option (List BidInfo) :=
  let r := crawlFrom env sig 0 [] 0
  if r.2.1 = env.urls.length ∧ 0 < env.urls.length then none else some r.1

/-- `crawl` together with the number of URLs it visited before stopping. -/
def crawlModelT (env : CrawlEnv) (sig : Nat → Bool) : Option (List BidInfo) × Nat :=
  let r := crawlFrom env sig 0 [] 0
  (if r.2.1 = env.urls.length ∧ 0 < env.urls.length then none else some r.1, r.2.2)

/-! ## AI relevance guard (`src/ai_guard.py`)

`AIGuard.check_relevance` is embedded with the body of one retry attempt
(the HTTP POST plus response/JSON handling) abstracted to its outcome, since
every path through that body either returns a `(relevant, reason)` pair,
raises `ConnectionError`/`Timeout` (the transient case the inner `except`
retries), or raises some other exception that falls to the outer handler.
A raised exception is `Except.error`. -/

/-- Guard configuration relevant to control flow. -/
structure AIGuard where
  enabled : Bool
  api_key : String
  deriving Repr, DecidableEq

/-- Outcome of the body of retry attempt `i`. -/
inductive AIAttempt where
  | transient
  | failure (msg : String)
  | answer (relevant : Bool) (reason : String)
  deriving Repr, DecidableEq

/-- One layer of the retry loop: an answer returns; a non-transient exception
reaches the outer `except Exception` handler, which re-raises under
`raise_on_error` and otherwise fails open with the truncated message; a
transient failure falls through to `next` (the rest of the loop). -/
def aiStep (a : AIAttempt) (raise_on_error : Bool)
    (next : Except String (Bool × String)) : Except String (Bool × String) :=
  match a with
  | .answer r reason => .ok (r, reason)
  | .failure msg =>
    if raise_on_error then .error msg else .ok (true, "AI请求异常: " ++ msg.take 50)
  | .transient => next

/-- `AIGuard.check_relevance`: disabled or key-less guards return relevant
immediately; a missing `requests` library returns relevant with an install
hint; otherwise up to `max_retries = 3` attempts run, and after the third
transient failure the guard re-raises under `raise_on_error` and otherwise
fails open with a reason naming the retry count. -/
def AIGuard.check_relevance (g : AIGuard) (att : Nat → AIAttempt)
    (raise_on_error : Bool) (importOk : Bool) : Except String (Bool × String) :=
  if !g.enabled then .ok (true, "AI未启用")
  else if g.api_key = "" then .ok (true, "AI未配置Key")
  else if !importOk then .ok (true, "请安装 requests 库: pip install requests")
  else
    let exhausted : Except String (Bool × String) :=
      if raise_on_error then .error "网络异常" else .ok (true, "AI网络异常（已重试3次）")
    aiStep (att 0) raise_on_error
      (aiStep (att 1) raise_on_error
        (aiStep (att 2) raise_on_error exhausted))

/-! ## Notification fanout (`src/gui.py`, `BidMonitorGUI._do_crawl` and the
`_send_*_to_contact` helpers)

For each enabled contact the four channels are tried in order (email, SMS,
WeChat, voice); each helper checks its channel prerequisites, attempts the
vendor send inside `try`/`except` (so a failure or exception is reduced to a
logged outcome), and after the whole fanout the batch is marked notified via
the URL-list form of `Storage.mark_notified`.  The vendor sends are an
oracle `send : contact index → channel → SendR`. -/

/-- A contact's `email` sub-configuration. -/
structure EmailCfg where
  address : Option String
  password : Option String
  deriving Repr, DecidableEq

/-- A notification contact. `Option` fields model Python keys that are
absent or falsy (empty). -/
structure Contact where
  name : String
  enabled : Bool := true
  email : Option EmailCfg := none
  phone : Option String := none
  wechat_token : Option String := none
  deriving Repr, DecidableEq

/-- Global channel toggles and provider prerequisites read by `_do_crawl`. -/
structure NotifyCfg where
  email_enabled : Bool
  sms_enabled : Bool
  wechat_enabled : Bool
  voice_enabled : Bool
  sms_access_key : Option String
  voice_tts_code : Option String
  deriving Repr, DecidableEq

/-- The four notification channels. -/
inductive Channel where
  | email
  | sms
  | wechat
  | voice
  deriving Repr, DecidableEq

/-- Result of one vendor send: returned `True`, returned `False`, or raised. -/
inductive SendR where
  | ok
  | failed
  | exn (msg : String)
  deriving Repr, DecidableEq

/-- One attempted (contact, channel) send and its outcome. -/
structure Attempt where
  contactIdx : Nat
  channel : Channel
  result : SendR
  deriving Repr, DecidableEq

/-- Does `_do_crawl` + `_send_email_to_contact` reach the actual send for
this contact? (channel enabled, `email` config with address and password,
non-empty batch.) -/
def emailEligible (cfg : NotifyCfg) (c : Contact) (bids : List BidInfo) : Bool :=
  cfg.email_enabled &&
    match c.email with
    | some e => !bids.isEmpty && e.address.isSome && e.password.isSome
    | none => false

/-- Guard for `_send_sms_to_contact`: channel enabled, contact phone,
provider `access_key_id`, non-empty batch. -/
def smsEligible (cfg : NotifyCfg) (c : Contact) (bids : List BidInfo) : Bool :=
  cfg.sms_enabled && c.phone.isSome && cfg.sms_access_key.isSome && !bids.isEmpty

/-- Guard for `_send_wechat_to_contact`: channel enabled, contact token,
non-empty batch. -/
def wechatEligible (cfg : NotifyCfg) (c : Contact) (bids : List BidInfo) : Bool :=
  cfg.wechat_enabled && c.wechat_token.isSome && !bids.isEmpty

/-- Guard for `_send_voice_to_contact`: channel enabled, contact phone,
provider `tts_code`, non-empty batch. -/
def voiceEligible (cfg : NotifyCfg) (c : Contact) (bids : List BidInfo) : Bool :=
  cfg.voice_enabled && c.phone.isSome && cfg.voice_tts_code.isSome && !bids.isEmpty

/-- The attempts one contact generates: nothing when disabled, otherwise the
four channels in source order, each recorded with its (caught) outcome. -/
def contactAttempts (cfg : NotifyCfg) (bids : List BidInfo)
    (send : Nat → Channel → SendR) (i : Nat) (c : Contact) : List Attempt :=
  if !c.enabled then []
  else
    (if emailEligible cfg c bids then [⟨i, .email, send i .email⟩] else []) ++
    (if smsEligible cfg c bids then [⟨i, .sms, send i .sms⟩] else []) ++
    (if wechatEligible cfg c bids then [⟨i, .wechat, send i .wechat⟩] else []) ++
    (if voiceEligible cfg c bids then [⟨i, .voice, send i .voice⟩] else [])

/-- The full fanout over the contact list. -/
def notifyFanout (cfg : NotifyCfg) (contacts : List Contact) (bids : List BidInfo)
    (send : Nat → Channel → SendR) : List Attempt :=
  contacts.enum.flatMap (fun p => contactAttempts cfg bids send p.1 p.2)

/-- The (contact, channel) pairs the fanout is required to attempt — a
function of the configuration, contacts and batch only, with no reference
to the sends' outcomes. -/
def eligiblePairs (cfg : NotifyCfg) (contacts : List Contact) (bids : List BidInfo) :
    List (Nat × Channel) :=
  contacts.enum.flatMap (fun p =>
    if !p.2.enabled then []
    else
      (if emailEligible cfg p.2 bids then [(p.1, Channel.email)] else []) ++
      (if smsEligible cfg p.2 bids then [(p.1, Channel.sms)] else []) ++
      (if wechatEligible cfg p.2 bids then [(p.1, Channel.wechat)] else []) ++
      (if voiceEligible cfg p.2 bids then [(p.1, Channel.voice)] else []))

/-- Output of the notification phase: the attempt log and the store. -/
structure NotifyPhaseOut where
  attempts : List Attempt
  store : StorageState
  deriving Repr

/-- The notification block of `_do_crawl`: fetch the unnotified batch; if
non-empty, fan it out to every contact and then mark the whole batch
notified once, by URL list. -/
def notifyPhase (cfg : NotifyCfg) (contacts : List Contact) (st : StorageState)
    (send : Nat → Channel → SendR) : NotifyPhaseOut :=
  let unnotified := st.get_unnotified
  if unnotified.isEmpty then ⟨[], st⟩
  else
    ⟨notifyFanout cfg contacts unnotified send,
     st.mark_notified (.urlList (unnotified.map BidInfo.url))⟩

/-! ## Round orchestration

`BidMonitorGUI._do_crawl` (in `src/gui.py`) calls
`MonitorCore.run_once(progress_callback=…, stop_event=…)`; the `monitor_core`
module itself is not under `src/` (only its callers and the analogous
`BidMonitor.run_once` of `src/main.py` are), so the adapter loop is modelled
from the spec.  The URL-level loop inside each adapter is the real
`BaseCrawler.crawl` embedding above.  An adapter is its crawl environment;
the stop signal is sampled as `sigA i` at the boundary before adapter `i`
and as `sigU i j` at the boundary before URL `j` of adapter `i`, the only
points where the source polls it. -/

/-- One source adapter, reduced to its crawl environment. -/
structure Adapter where
  env : CrawlEnv

/-- A crawl environment with no URLs (used only as a `getD` default; never
reached for in-range indices). -/
def emptyEnv : CrawlEnv :=
  ⟨[], fun _ => none, fun _ _ => .error ()⟩

/-- The per-record classify-and-persist step of a round (as in
`BidMonitor.run_once` of `src/main.py`): a record whose title or content
matches and whose `unique_id` is not yet stored is saved unnotified and
counted as new; the clock supplies `created_at` timestamps. -/
def saveMatched (m : KeywordMatcher) (bids : List BidInfo)
    (st : StorageState) (clock : Nat) (acc : List BidInfo) :
    StorageState × Nat × List BidInfo :=
  bids.foldl
    (fun (p : StorageState × Nat × List BidInfo) bid =>
      if (m.match_any [bid.title, bid.content]).matched && !p.1.existsBid bid then
        ((p.1.save bid false p.2.1).2, p.2.1 + 1, p.2.2 ++ [bid])
      else p)
    (st, clock, acc)

/-- Result of one round. -/
structure RoundOut where
  invoked : List Nat
  new_bids : List BidInfo
  store : StorageState
  clock : Nat
  interrupted : Bool
  deriving Repr

/-- Modelled from the spec: the adapter loop of `MonitorCore.run_once`
(module `monitor_core`, which is not under `src/`): "For each adapter in
order: check `stopSignal`; if set, abort the round immediately without
advancing further adapters, but without discarding records already stored in
this round.  Otherwise invoke the adapter's fetch strategy, classify results
through KeywordMatcher …, persist via DedupStore."  A crawl returning `None`
(adapter exhausted) contributes nothing and the round continues. -/
def runRoundFrom (m : KeywordMatcher) (adapters : List Adapter)
    (sigA : Nat → Bool) (sigU : Nat → Nat → Bool) (i : Nat)
    (st : StorageState) (clock : Nat) (invoked : List Nat)
    (acc : List BidInfo) : RoundOut :=
  if _h : i < adapters.length then
    if sigA i then ⟨invoked, acc, st, clock, true⟩
    else
      runRoundFrom m adapters sigA sigU (i + 1)
        (saveMatched m ((crawlModel (adapters.getD i ⟨emptyEnv⟩).env (sigU i)).getD [])
          st clock acc).1
        (saveMatched m ((crawlModel (adapters.getD i ⟨emptyEnv⟩).env (sigU i)).getD [])
          st clock acc).2.1
        (invoked ++ [i])
        (saveMatched m ((crawlModel (adapters.getD i ⟨emptyEnv⟩).env (sigU i)).getD [])
          st clock acc).2.2
  else ⟨invoked, acc, st, clock, false⟩
termination_by adapters.length - i

/-- Modelled from the spec: one full `MonitorCore.run_once` round. -/
def runRound (m : KeywordMatcher) (adapters : List Adapter) (sigA : Nat → Bool)
    (sigU : Nat → Nat → Bool) (st : StorageState) (clock : Nat) : RoundOut :=
  runRoundFrom m adapters sigA sigU 0 st clock [] []

/-- Output of `_do_crawl`: the round result, the notification attempts, and
the final store. -/
structure CrawlPhaseOut where
  round : RoundOut
  attempts : List Attempt
  store : StorageState
  deriving Repr

/-- `BidMonitorGUI._do_crawl` after the round (real code in `src/gui.py`):
when stopped with no new records the function returns without notifying;
otherwise the unnotified batch is fanned out and marked. -/
def doCrawlPost (cfg : NotifyCfg) (contacts : List Contact)
    (send : Nat → Channel → SendR) (r : RoundOut) (sigEnd : Bool) : CrawlPhaseOut :=
  if (r.interrupted || sigEnd) && r.new_bids.length = 0 then ⟨r, [], r.store⟩
  else
    ⟨r, (notifyPhase cfg contacts r.store send).attempts,
     (notifyPhase cfg contacts r.store send).store⟩

/-- `BidMonitorGUI._do_crawl`: the round followed by `doCrawlPost`, where
`was_stopped` re-samples the stop signal after the round. -/
def doCrawl (m : KeywordMatcher) (adapters : List Adapter) (sigA : Nat → Bool)
    (sigU : Nat → Nat → Bool) (st0 : StorageState) (clock : Nat)
    (cfg : NotifyCfg) (contacts : List Contact)
    (send : Nat → Channel → SendR) : CrawlPhaseOut :=
  doCrawlPost cfg contacts send (runRound m adapters sigA sigU st0 clock)
    (sigA adapters.length)

/-! ## Lemmas about the keyword matcher -/

/-- A list with a false `isEmpty` flag has a member. -/
theorem mem_of_not_isEmpty {α : Type} {l : List α} (h : (!l.isEmpty) = true) :
    ∃ x, x ∈ l := by
  cases l with
  | nil => cases h
  | cons a t => exact ⟨a, List.mem_cons_self a t⟩

/-- A list with a member has a false `isEmpty` flag. -/
theorem not_isEmpty_of_mem {α : Type} {x : α} {l : List α} (h : x ∈ l) :
    (!l.isEmpty) = true := by
  cases l with
  | nil => cases h
  | cons a t => rfl

/-- Membership in the must-contain accumulation fold of
`KeywordMatcher.match`: a keyword is collected iff it was already in `base`
or it is an occurring member of `ms`. -/
theorem mem_mustFold (tl : String) (ms : List String) (base : List String) (kw : String) :
    kw ∈ ms.foldl
      (fun acc k => if strContains tl k && !acc.contains k then acc ++ [k] else acc)
      base ↔
    kw ∈ base ∨ (kw ∈ ms ∧ strContains tl kw = true) := by
  induction ms generalizing base with
  | nil => simp
  | cons m ms ih =>
    rw [List.foldl_cons]
    by_cases hm : strContains tl m = true
    · by_cases hb : m ∈ base
      · have hcond : (strContains tl m && !base.contains m) = false := by simp [hm, hb]
        rw [hcond, if_neg (by simp), ih]
        simp only [List.mem_cons]
        constructor
        · rintro (h | ⟨hk, hc⟩)
          · exact Or.inl h
          · exact Or.inr ⟨Or.inr hk, hc⟩
        · rintro (h | ⟨rfl | hk, hc⟩)
          · exact Or.inl h
          · exact Or.inl hb
          · exact Or.inr ⟨hk, hc⟩
      · have hcond : (strContains tl m && !base.contains m) = true := by simp [hm, hb]
        rw [hcond, if_pos rfl, ih]
        simp only [List.mem_append, List.mem_cons, List.mem_singleton]
        constructor
        · rintro ((h | rfl | hnil) | ⟨hk, hc⟩)
          · exact Or.inl h
          · exact Or.inr ⟨Or.inl rfl, hm⟩
          · exact absurd hnil (List.not_mem_nil _)
          · exact Or.inr ⟨Or.inr hk, hc⟩
        · rintro (h | ⟨rfl | hk, hc⟩)
          · exact Or.inl (Or.inl h)
          · exact Or.inl (Or.inr (Or.inl rfl))
          · exact Or.inr ⟨hk, hc⟩
    · have hm' : strContains tl m = false := by simpa using hm
      have hcond : (strContains tl m && !base.contains m) = false := by simp [hm']
      rw [hcond, if_neg (by simp), ih]
      simp only [List.mem_cons]
      constructor
      · rintro (h | ⟨hk, hc⟩)
        · exact Or.inl h
        · exact Or.inr ⟨Or.inr hk, hc⟩
      · rintro (h | ⟨rfl | hk, hc⟩)
        · exact Or.inl h
        · rw [hm'] at hc; cases hc
        · exact Or.inr ⟨hk, hc⟩

/-- Claim C2, counterexample.  The claim quantifies over every text of which
some exclude keyword is a case-insensitive substring; with exclude keyword
list `[""]` and the empty text, the empty keyword is a substring of the
text, yet `match` returns with `excluded_by` unset, because the
`if not text` shortcut runs before the exclusion scan. -/
theorem KeywordMatcher.match_empty_text_counterexample :
    strContains (lowerStr ("")) (lowerStr ("")) = true ∧
    ((KeywordMatcher.init [] [""] []).«match» ("")).matched = false ∧
    ((KeywordMatcher.init [] [""] []).«match» ("")).excluded_by = none := by
  decide

/-- Claim C2 (amended to non-empty texts): for every non-empty text of which
some exclude keyword is a case-insensitive substring, `match` reports
not-matched, no matched keywords, and `excluded_by` set to (the lowercased
form of) an exclude keyword occurring in the text — regardless of the
include and must-contain lists. -/
theorem KeywordMatcher.match_exclusion_wins (inc exc must : List String) (t kw : String)
    (ht : t ≠ "") (hkw : kw ∈ exc)
    (hhit : strContains (lowerStr t) (lowerStr kw) = true) :
    ((KeywordMatcher.init inc exc must).«match» t).matched = false ∧
    ((KeywordMatcher.init inc exc must).«match» t).matched_keywords = [] ∧
    ∃ kw', kw' ∈ exc ∧ strContains (lowerStr t) (lowerStr kw') = true ∧
      ((KeywordMatcher.init inc exc must).«match» t).excluded_by = some (lowerStr kw') := by
  simp only [KeywordMatcher.«match», KeywordMatcher.init, if_neg ht]
  cases hfind : (exc.map lowerStr).find? (fun k => strContains (lowerStr t) k) with
  | none =>
    exfalso
    have hnone := List.find?_eq_none.mp hfind (lowerStr kw) (List.mem_map_of_mem _ hkw)
    rw [hhit] at hnone
    exact hnone rfl
  | some x =>
    have hx := List.find?_some hfind
    have hxmem := List.mem_of_find?_eq_some hfind
    obtain ⟨kw', hkw', rfl⟩ := List.mem_map.mp hxmem
    exact ⟨rfl, rfl, kw', hkw', hx, rfl⟩

/-- Witness for the amended C2 theorem at the spec's own example: include
`光伏`, exclude `测绘`, must-contain `无人机`, title `光伏测绘无人机项目`. -/
theorem KeywordMatcher.match_exclusion_wins_witness :
    ((KeywordMatcher.init ["光伏"] ["测绘"] ["无人机"]).«match» ("光伏测绘无人机项目")).matched
        = false ∧
    ((KeywordMatcher.init ["光伏"] ["测绘"] ["无人机"]).«match» ("光伏测绘无人机项目")).matched_keywords
        = [] ∧
    ∃ kw', kw' ∈ ["测绘"] ∧
      strContains (lowerStr ("光伏测绘无人机项目")) (lowerStr kw') = true ∧
      ((KeywordMatcher.init ["光伏"] ["测绘"] ["无人机"]).«match» ("光伏测绘无人机项目")).excluded_by
        = some (lowerStr kw') :=
  KeywordMatcher.match_exclusion_wins ["光伏"] ["测绘"] ["无人机"]
    ("光伏测绘无人机项目") ("测绘") (by decide) (by decide) (by decide)

/-- Claim C3, counterexample.  With include `光伏`, no excludes, must-contain
`无人机` and text `无人机采购`: no include keyword occurs in the text, yet
`match` reports matched, because the occurring must-contain keyword is
appended to `matched_keywords` and `matched` is computed from that list's
non-emptiness.  This refutes "matched = true iff at least one include
keyword is a substring". -/
theorem KeywordMatcher.match_must_only_counterexample :
    ((KeywordMatcher.init ["光伏"] [] ["无人机"]).«match» ("无人机采购")).matched = true ∧
    strContains (lowerStr ("无人机采购")) (lowerStr ("光伏")) = false ∧
    strContains (lowerStr ("无人机采购")) (lowerStr ("无人机")) = true := by
  decide

/-- Claim C3 (amended: "include" → "include or must-contain").  For every
non-empty text containing no exclude keyword and passing the must-contain
gate, `match` reports matched iff at least one include **or must-contain**
keyword occurs case-insensitively, and `matched_keywords` is exactly the set
of (lowercased) include and must-contain keywords occurring in the text. -/
theorem KeywordMatcher.match_or_over_include_and_must (inc exc must : List String)
    (t : String) (ht : t ≠ "")
    (hexc : ∀ kw ∈ exc, strContains (lowerStr t) (lowerStr kw) = false)
    (hmust : must ≠ [] → ∃ kw ∈ must, strContains (lowerStr t) (lowerStr kw) = true) :
    (((KeywordMatcher.init inc exc must).«match» t).matched = true ↔
      ∃ kw, (kw ∈ inc ∨ kw ∈ must) ∧ strContains (lowerStr t) (lowerStr kw) = true) ∧
    (∀ kw, kw ∈ ((KeywordMatcher.init inc exc must).«match» t).matched_keywords ↔
      ∃ kw₀, (kw₀ ∈ inc ∨ kw₀ ∈ must) ∧ kw = lowerStr kw₀ ∧
        strContains (lowerStr t) (lowerStr kw₀) = true) := by
  have hfind : (exc.map lowerStr).find? (fun k => strContains (lowerStr t) k) = none := by
    rw [List.find?_eq_none]
    intro x hx
    obtain ⟨kw, hkw, rfl⟩ := List.mem_map.mp hx
    simp [hexc kw hkw]
  have hgate : (!(must.map lowerStr).isEmpty &&
      !(must.map lowerStr).any (fun k => strContains (lowerStr t) k)) = false := by
    by_cases hm : must = []
    · simp [hm]
    · obtain ⟨kw, hkw, hhit⟩ := hmust hm
      have hany : ((must.map lowerStr).any (fun k => strContains (lowerStr t) k)) = true :=
        List.any_eq_true.mpr ⟨lowerStr kw, List.mem_map_of_mem _ hkw, hhit⟩
      simp [hany]
  have hmem : ∀ kw,
      kw ∈ (must.map lowerStr).foldl
        (fun acc k => if strContains (lowerStr t) k && !acc.contains k then acc ++ [k] else acc)
        ((inc.map lowerStr).filter (fun k => strContains (lowerStr t) k)) ↔
      ∃ kw₀, (kw₀ ∈ inc ∨ kw₀ ∈ must) ∧ kw = lowerStr kw₀ ∧
        strContains (lowerStr t) (lowerStr kw₀) = true := by
    intro kw
    rw [mem_mustFold]
    constructor
    · rintro (hb | ⟨hk, hc⟩)
      · obtain ⟨hmemm, hp⟩ := List.mem_filter.mp hb
        obtain ⟨kw₀, hkw₀, rfl⟩ := List.mem_map.mp hmemm
        exact ⟨kw₀, Or.inl hkw₀, rfl, hp⟩
      · obtain ⟨kw₀, hkw₀, rfl⟩ := List.mem_map.mp hk
        exact ⟨kw₀, Or.inr hkw₀, rfl, hc⟩
    · rintro ⟨kw₀, hin | hmu, rfl, hc⟩
      · exact Or.inl (List.mem_filter.mpr ⟨List.mem_map_of_mem _ hin, hc⟩)
      · exact Or.inr ⟨List.mem_map_of_mem _ hmu, hc⟩
  simp only [KeywordMatcher.«match», KeywordMatcher.init, if_neg ht, hfind, hgate,
    Bool.false_eq_true, if_neg (by simp : ¬(false = true))]
  refine ⟨?_, hmem⟩
  constructor
  · intro hne
    obtain ⟨x, hx⟩ := mem_of_not_isEmpty hne
    obtain ⟨kw₀, hk, _, hc⟩ := (hmem x).mp hx
    exact ⟨kw₀, hk, hc⟩
  · rintro ⟨kw, hk, hc⟩
    exact not_isEmpty_of_mem ((hmem (lowerStr kw)).mpr ⟨kw, hk, rfl, hc⟩)

/-- Witness for the amended C3 theorem at the spec's example: include
`光伏`/`无人机`, exclude `测绘`, must-contain `无人机`, title
`某光伏电站无人机巡检采购` — matched with both keywords reported. -/
theorem KeywordMatcher.match_or_over_include_and_must_witness :
    (((KeywordMatcher.init ["光伏", "无人机"] ["测绘"] ["无人机"]).«match»
        ("某光伏电站无人机巡检采购")).matched = true ↔
      ∃ kw, (kw ∈ ["光伏", "无人机"] ∨ kw ∈ ["无人机"]) ∧
        strContains (lowerStr ("某光伏电站无人机巡检采购")) (lowerStr kw) = true) ∧
    (∀ kw, kw ∈ ((KeywordMatcher.init ["光伏", "无人机"] ["测绘"] ["无人机"]).«match»
        ("某光伏电站无人机巡检采购")).matched_keywords ↔
      ∃ kw₀, (kw₀ ∈ ["光伏", "无人机"] ∨ kw₀ ∈ ["无人机"]) ∧ kw = lowerStr kw₀ ∧
        strContains (lowerStr ("某光伏电站无人机巡检采购")) (lowerStr kw₀) = true) :=
  KeywordMatcher.match_or_over_include_and_must ["光伏", "无人机"] ["测绘"] ["无人机"]
    ("某光伏电站无人机巡检采购") (by decide)
    (by intro kw hkw; fin_cases hkw; decide)
    (by intro h; exact ⟨"无人机", by decide, by decide⟩)

/-! ## The AI guard fails open (C5) -/

/-- With `raise_on_error = False`, one retry-loop layer preserves "returns
`ok`": an answer returns it, a non-transient failure is converted by the
outer handler, a transient failure defers to the rest of the loop. -/
theorem aiStep_fail_open (a : AIAttempt) (next : Except String (Bool × String))
    (h : ∃ p, next = .ok p) : ∃ p, aiStep a false next = .ok p := by
  cases a with
  | answer r reason => exact ⟨(r, reason), rfl⟩
  | failure msg => exact ⟨(true, "AI请求异常: " ++ msg.take 50), rfl⟩
  | transient => exact h

/-- Claim C5: with the default `raise_on_error = False`, `check_relevance`
never raises, whatever the guard configuration and the attempts' outcomes;
a disabled guard returns relevant with reason `AI未启用`; an enabled guard
without API key returns relevant with reason `AI未配置Key`; and when all 3
retry attempts fail transiently it returns relevant with a reason naming the
retry count (`3次`), rather than dropping the item. -/
theorem AIGuard.check_relevance_fails_open (g : AIGuard) (att : Nat → AIAttempt)
    (importOk : Bool) :
    (∃ p, g.check_relevance att false importOk = .ok p) ∧
    (g.enabled = false → g.check_relevance att false importOk = .ok (true, "AI未启用")) ∧
    (g.enabled = true → g.api_key = "" →
      g.check_relevance att false importOk = .ok (true, "AI未配置Key")) ∧
    ((∀ i, i < 3 → att i = .transient) → g.enabled = true → g.api_key ≠ "" →
      importOk = true →
      g.check_relevance att false importOk = .ok (true, "AI网络异常（已重试3次）") ∧
      strContains ("AI网络异常（已重试3次）") ("3次") = true) := by
  refine ⟨?_, ?_, ?_, ?_⟩
  · unfold AIGuard.check_relevance
    by_cases he : (!g.enabled) = true
    · rw [if_pos he]; exact ⟨_, rfl⟩
    · rw [if_neg he]
      by_cases hk : g.api_key = ""
      · rw [if_pos hk]; exact ⟨_, rfl⟩
      · rw [if_neg hk]
        by_cases hi : (!importOk) = true
        · rw [if_pos hi]; exact ⟨_, rfl⟩
        · rw [if_neg hi]
          exact aiStep_fail_open _ _ (aiStep_fail_open _ _ (aiStep_fail_open _ _ ⟨_, rfl⟩))
  · intro he
    simp [AIGuard.check_relevance, he]
  · intro he hk
    simp [AIGuard.check_relevance, he, hk]
  · intro hall he hk hi
    refine ⟨?_, by decide⟩
    simp [AIGuard.check_relevance, he, hk, hi, aiStep,
      hall 0 (by omega), hall 1 (by omega), hall 2 (by omega)]

/-- Witness for C5 at a concrete enabled guard whose three attempts all fail
transiently. -/
theorem AIGuard.check_relevance_fails_open_witness :
    (AIGuard.mk true "sk-1").check_relevance (fun _ => .transient) false true
      = .ok (true, "AI网络异常（已重试3次）") ∧
    strContains ("AI网络异常（已重试3次）") ("3次") = true :=
  (AIGuard.check_relevance_fails_open ⟨true, "sk-1"⟩ (fun _ => .transient) true).2.2.2
    (fun _ _ => rfl) rfl (by decide) rfl

/-! ## Fetch retry behaviour (C7) -/

/-- A retryable attempt (neither a body nor a 401/403 denial) makes `fetch`
move on to the next attempt. -/
theorem fetchFrom_step_skip (att : Nat → AttemptR) (maxr i : Nat) (hi : i < maxr)
    (hs : (att i).succeeds = false) (hd : (att i).denies = false) :
    fetchFrom att maxr i = fetchFrom att maxr (i + 1) := by
  rw [fetchFrom, dif_pos hi]
  cases h : att i with
  | ok html => rw [h] at hs; cases hs
  | httpErr s =>
    have hcond : ¬(s = some 401 ∨ s = some 403) := by
      rw [h] at hd
      simpa [AttemptR.denies] using hd
    exact if_neg hcond
  | sslErr => rfl
  | timeoutErr => rfl
  | connErr => rfl
  | reqErr => rfl

/-- A 401/403 denial returns `None` at once, after `i + 1` attempts. -/
theorem fetchFrom_denied (att : Nat → AttemptR) (maxr i : Nat) (hi : i < maxr)
    (hd : (att i).denies = true) :
    fetchFrom att maxr i = (none, i + 1) := by
  rw [fetchFrom, dif_pos hi]
  cases h : att i with
  | ok html => rw [h] at hd; cases hd
  | httpErr s =>
    have hcond : s = some 401 ∨ s = some 403 := by
      rw [h] at hd
      simpa [AttemptR.denies] using hd
    exact if_pos hcond
  | sslErr => rw [h] at hd; cases hd
  | timeoutErr => rw [h] at hd; cases hd
  | connErr => rw [h] at hd; cases hd
  | reqErr => rw [h] at hd; cases hd

/-- If attempts `k … i - 1` are retryable and attempt `i` is a denial, the
loop started at `k` returns `None` after exactly `i + 1` attempts. -/
theorem fetchFrom_reach (att : Nat → AttemptR) (maxr i : Nat) (hi : i < maxr)
    (hd : (att i).denies = true) :
    ∀ k, k ≤ i →
      (∀ j, k ≤ j → j < i → (att j).succeeds = false ∧ (att j).denies = false) →
      fetchFrom att maxr k = (none, i + 1) := by
  have H : ∀ n k, k ≤ i → i - k = n →
      (∀ j, k ≤ j → j < i → (att j).succeeds = false ∧ (att j).denies = false) →
      fetchFrom att maxr k = (none, i + 1) := by
    intro n
    induction n with
    | zero =>
      intro k hk hn _
      have hki : k = i := by omega
      subst hki
      exact fetchFrom_denied att maxr k hi hd
    | succ n ih =>
      intro k hk hn hskip
      have hki : k < i := by omega
      rw [fetchFrom_step_skip att maxr k (by omega) (hskip k le_rfl hki).1
        (hskip k le_rfl hki).2]
      exact ih (k + 1) (by omega) (by omega) (fun j hj1 hj2 => hskip j (by omega) hj2)
  exact fun k hk hskip => H (i - k) k hk rfl hskip

/-- Soundness of a returned body: the loop yields `some html` only if some
in-range attempt actually returned that body. -/
theorem fetchFrom_some_attempt (att : Nat → AttemptR) (maxr : Nat) :
    ∀ i html, (fetchFrom att maxr i).1 = some html →
      ∃ j, i ≤ j ∧ j < maxr ∧ att j = .ok html := by
  have H : ∀ n i html, maxr - i = n → (fetchFrom att maxr i).1 = some html →
      ∃ j, i ≤ j ∧ j < maxr ∧ att j = .ok html := by
    intro n
    induction n with
    | zero =>
      intro i html hn h
      have hge : ¬i < maxr := by omega
      rw [fetchFrom, dif_neg hge] at h
      cases h
    | succ n ih =>
      intro i html hn h
      have hi : i < maxr := by omega
      rw [fetchFrom, dif_pos hi] at h
      cases hatt : att i with
      | ok html' =>
        rw [hatt] at h
        replace h : some html' = some html := h
        exact ⟨i, le_rfl, hi, by rw [hatt, Option.some_inj.mp h]⟩
      | httpErr s =>
        rw [hatt] at h
        replace h : (if s = some 401 ∨ s = some 403
            then ((none : Option String), i + 1)
            else fetchFrom att maxr (i + 1)).1 = some html := h
        by_cases hcond : s = some 401 ∨ s = some 403
        · rw [if_pos hcond] at h; cases h
        · rw [if_neg hcond] at h
          obtain ⟨j, hj1, hj2, hj3⟩ := ih (i + 1) html (by omega) h
          exact ⟨j, by omega, hj2, hj3⟩
      | sslErr =>
        rw [hatt] at h
        replace h : (fetchFrom att maxr (i + 1)).1 = some html := h
        obtain ⟨j, hj1, hj2, hj3⟩ := ih (i + 1) html (by omega) h
        exact ⟨j, by omega, hj2, hj3⟩
      | timeoutErr =>
        rw [hatt] at h
        replace h : (fetchFrom att maxr (i + 1)).1 = some html := h
        obtain ⟨j, hj1, hj2, hj3⟩ := ih (i + 1) html (by omega) h
        exact ⟨j, by omega, hj2, hj3⟩
      | connErr =>
        rw [hatt] at h
        replace h : (fetchFrom att maxr (i + 1)).1 = some html := h
        obtain ⟨j, hj1, hj2, hj3⟩ := ih (i + 1) html (by omega) h
        exact ⟨j, by omega, hj2, hj3⟩
      | reqErr =>
        rw [hatt] at h
        replace h : (fetchFrom att maxr (i + 1)).1 = some html := h
        obtain ⟨j, hj1, hj2, hj3⟩ := ih (i + 1) html (by omega) h
        exact ⟨j, by omega, hj2, hj3⟩
  exact fun i html h => H (maxr - i) i html rfl h

/-- Claim C7: if the attempts before `i` were all retryable failures and
attempt `i` receives HTTP 401 or 403, `fetch` returns no HTML immediately
(exactly `i + 1` attempts, no further retries); and in general `fetch`
returns HTML only when some attempt succeeded — every non-success outcome
returns no HTML. -/
theorem fetch_denied_no_retry (att : Nat → AttemptR) (max_retries i : Nat)
    (hi : i < max_retries)
    (hbefore : ∀ j, j < i → (att j).succeeds = false ∧ (att j).denies = false)
    (hden : (att i).denies = true) :
    fetchModel att max_retries = (none, i + 1) ∧
    ∀ (g : Nat → AttemptR) (m : Nat) (html : String),
      (fetchModel g m).1 = some html → ∃ j, j < m ∧ g j = AttemptR.ok html := by
  constructor
  · exact fetchFrom_reach att max_retries i hi hden 0 (Nat.zero_le _)
      (fun j _ hj => hbefore j hj)
  · intro g m html h
    obtain ⟨j, _, hj, hok⟩ := fetchFrom_some_attempt g m 0 html h
    exact ⟨j, hj, hok⟩

/-- Witness for C7: first attempt times out, second attempt is an HTTP 403;
`fetch` with `max_retries = 3` returns `None` after exactly 2 attempts. -/
theorem fetch_denied_no_retry_witness :
    fetchModel (fun n => if n = 0 then AttemptR.timeoutErr else AttemptR.httpErr (some 403)) 3
      = (none, 2) :=
  (fetch_denied_no_retry
    (fun n => if n = 0 then AttemptR.timeoutErr else AttemptR.httpErr (some 403)) 3 1
    (by omega)
    (fun j hj => by interval_cases j; exact ⟨rfl, rfl⟩)
    rfl).1

/-! ## Adapter exhaustion (C8) -/

/-- A failed URL contributes no records. -/
theorem urlBids_eq_nil_of_failed (env : CrawlEnv) (i : Nat) (h : urlFailed env i = true) :
    urlBids env i = [] := by
  unfold urlFailed at h
  unfold urlBids
  cases hf : env.fetchR i with
  | none => simp
  | some html =>
    simp only [hf] at h ⊢
    cases hb : is_blocked html with
    | true => simp [hb]
    | false =>
      simp only [hb, Bool.false_or] at h
      cases hp : env.parseR i html with
      | error e => simp [hb, hp]
      | ok bids =>
        simp only [hp] at h
        cases h

/-- With the stop signal never set, the URL loop from index `i` visits every
remaining URL, collects the records of the non-failing ones in order, and
counts the failing ones. -/
theorem crawlFrom_noStop (env : CrawlEnv) :
    ∀ n i acc failed, env.urls.length - i = n → i ≤ env.urls.length →
      crawlFrom env (fun _ => false) i acc failed =
        (acc ++ (List.range' i (env.urls.length - i)).flatMap (urlBids env),
         failed + ((List.range' i (env.urls.length - i)).filter
           (fun j => urlFailed env j)).length,
         env.urls.length) := by
  intro n
  induction n with
  | zero =>
    intro i acc failed hn hi
    have hie : i = env.urls.length := by omega
    subst hie
    rw [crawlFrom, dif_neg (by omega)]
    simp
  | succ n ih =>
    intro i acc failed hn hi
    have hlt : i < env.urls.length := by omega
    rw [crawlFrom, dif_pos hlt]
    have hrange : List.range' i (env.urls.length - i) =
        i :: List.range' (i + 1) (env.urls.length - (i + 1)) := by
      have h1 : env.urls.length - i = (env.urls.length - (i + 1)) + 1 := by omega
      rw [h1]
      rfl
    rw [hrange]
    by_cases hf : urlFailed env i = true
    · rw [if_neg (by simp), if_pos hf, ih (i + 1) acc (failed + 1) (by omega) (by omega)]
      simp [urlBids_eq_nil_of_failed env i hf, hf]
      omega
    · have hf' : urlFailed env i = false := by simpa using hf
      rw [if_neg (by simp), if_neg (by simp [hf']),
        ih (i + 1) (acc ++ urlBids env i) failed (by omega) (by omega)]
      simp [hf']

/-- Claim C8: with a non-empty URL list (and no stop request), `crawl`
returns `None` iff every URL failed (no HTML, blocked page, or raising
parse); and if at least one URL succeeds it returns all records collected
from the succeeding pages, in order. -/
theorem crawl_exhausted_iff (env : CrawlEnv) (hne : env.urls ≠ []) :
    (crawlModel env (fun _ => false) = none ↔
      ∀ i, i < env.urls.length → urlFailed env i = true) ∧
    ((∃ i, i < env.urls.length ∧ urlFailed env i = false) →
      crawlModel env (fun _ => false) =
        some ((List.range env.urls.length).flatMap (urlBids env))) := by
  have hlen : 0 < env.urls.length := List.length_pos.mpr hne
  have hrun := crawlFrom_noStop env env.urls.length 0 [] 0 (by omega) (by omega)
  rw [Nat.sub_zero, List.nil_append, ← List.range_eq_range'] at hrun
  simp only [Nat.zero_add] at hrun
  have hmodel : crawlModel env (fun _ => false) =
      if ((List.range env.urls.length).filter (fun j => urlFailed env j)).length
          = env.urls.length ∧ 0 < env.urls.length
      then none
      else some ((List.range env.urls.length).flatMap (urlBids env)) := by
    simp only [crawlModel, hrun]
  constructor
  · constructor
    · intro hnone i hi
      rw [hmodel] at hnone
      by_cases hall : ((List.range env.urls.length).filter
          (fun j => urlFailed env j)).length = env.urls.length
      · have hcnt : ((List.range env.urls.length).filter
            (fun j => urlFailed env j)).length = (List.range env.urls.length).length := by
          simpa using hall
        exact List.filter_length_eq_length.mp hcnt i (List.mem_range.mpr hi)
      · rw [if_neg (fun hc => hall hc.1)] at hnone
        cases hnone
    · intro hall
      rw [hmodel]
      have hcnt : ((List.range env.urls.length).filter
          (fun j => urlFailed env j)).length = (List.range env.urls.length).length :=
        List.filter_length_eq_length.mpr
          (fun a ha => hall a (List.mem_range.mp ha))
      rw [if_pos ⟨by simpa using hcnt, hlen⟩]
  · rintro ⟨i, hi, hokk⟩
    rw [hmodel]
    have hflt : ((List.range env.urls.length).filter
        (fun j => urlFailed env j)).length ≠ env.urls.length := by
      intro heq
      have hcnt : ((List.range env.urls.length).filter
          (fun j => urlFailed env j)).length = (List.range env.urls.length).length := by
        simpa using heq
      have := List.filter_length_eq_length.mp hcnt i (List.mem_range.mpr hi)
      rw [hokk] at this
      cases this
    rw [if_neg (fun hc => hflt hc.1)]

/-- Witness for C8 at a concrete two-URL adapter: the first URL's fetch
fails, the second URL parses to one record, so `crawl` returns that
record. -/
theorem crawl_exhausted_iff_witness :
    crawlModel
      ⟨["http://a.example/1", "http://a.example/2"],
       fun i => if i = 0 then none else some ("page"),
       fun i _ => .ok (if i = 1 then [⟨"t", "u", "d", "s", "", ""⟩] else [])⟩
      (fun _ => false) =
    some ((List.range 2).flatMap (urlBids
      ⟨["http://a.example/1", "http://a.example/2"],
       fun i => if i = 0 then none else some ("page"),
       fun i _ => .ok (if i = 1 then [⟨"t", "u", "d", "s", "", ""⟩] else [])⟩)) :=
  (crawl_exhausted_iff
    ⟨["http://a.example/1", "http://a.example/2"],
     fun i => if i = 0 then none else some ("page"),
     fun i _ => .ok (if i = 1 then [⟨"t", "u", "d", "s", "", ""⟩] else [])⟩
    (by simp)).2 ⟨1, by simp, by decide⟩

/-! ## Deduplicating persistence (C1, C10, C9) -/

/-- Claim C1: starting from a store not yet containing the URL, saving `r1`
and then `r2` with the same URL (other fields arbitrary) succeeds for the
first call, fails for the second, and leaves exactly one row with that URL's
`uniqueId` — which is the MD5 hex digest of the URL. -/
theorem StorageState.save_dedup (st : StorageState) (r1 r2 : BidInfo) (t1 t2 : Nat)
    (hurl : r1.url = r2.url) (hnew : st.existsBid r1 = false) :
    (st.save r1 false t1).1 = true ∧
    ((st.save r1 false t1).2.save r2 false t2).1 = false ∧
    (((st.save r1 false t1).2.save r2 false t2).2.rows.filter
      (fun r => r.unique_id == r1.unique_id)).length = 1 ∧
    r1.unique_id = md5Hex (utf8Bytes r1.url) := by
  have huid : r2.unique_id = r1.unique_id := by
    unfold BidInfo.unique_id
    rw [hurl]
  have hnil : st.rows.filter (fun r => r.unique_id == r1.unique_id) = [] := by
    rw [List.filter_eq_nil_iff]
    intro r hr
    unfold StorageState.existsBid at hnew
    have := List.any_eq_false.mp hnew r hr
    simpa using this
  have hne : ¬∃ x ∈ st.rows, x.unique_id = r1.unique_id := by
    rintro ⟨x, hx, he⟩
    unfold StorageState.existsBid at hnew
    have := List.any_eq_false.mp hnew x hx
    simp [he] at this
  refine ⟨?_, ?_, ?_, rfl⟩
  · simp [StorageState.save, StorageState.existsBid, hne]
  · simp [StorageState.save, StorageState.existsBid, hne, huid]
  · simp [StorageState.save, StorageState.existsBid, hne, huid, List.filter_append, hnil]

/-- Witness for C1: two records with the same URL and different titles,
saved into the empty store. -/
theorem StorageState.save_dedup_witness :
    ((StorageState.mk []).save ⟨"t1", "http://x/1", "d1", "s1", "", ""⟩ false 10).1 = true ∧
    (((StorageState.mk []).save ⟨"t1", "http://x/1", "d1", "s1", "", ""⟩ false 10).2.save
      ⟨"t2", "http://x/1", "d2", "s2", "c", "p"⟩ false 11).1 = false ∧
    ((((StorageState.mk []).save ⟨"t1", "http://x/1", "d1", "s1", "", ""⟩ false 10).2.save
      ⟨"t2", "http://x/1", "d2", "s2", "c", "p"⟩ false 11).2.rows.filter
      (fun r => r.unique_id == BidInfo.unique_id ⟨"t1", "http://x/1", "d1", "s1", "", ""⟩)).length
        = 1 ∧
    BidInfo.unique_id ⟨"t1", "http://x/1", "d1", "s1", "", ""⟩ =
      md5Hex (utf8Bytes ("http://x/1")) :=
  StorageState.save_dedup ⟨[]⟩ ⟨"t1", "http://x/1", "d1", "s1", "", ""⟩
    ⟨"t2", "http://x/1", "d2", "s2", "c", "p"⟩ 10 11 rfl rfl

/-- Claim C10: for a record present in the store, the URL-string form, the
record-list form and the single-record form of `mark_notified` agree: all
three compute the same MD5 `uniqueId` and set `notified` on exactly the rows
carrying it, leaving every other row (and every other field) unchanged. -/
theorem StorageState.mark_notified_forms (st : StorageState) (r : BidInfo)
    (hin : st.existsBid r = true) :
    st.mark_notified (.urlList [r.url]) = st.mark_notified (.bidList [r]) ∧
    st.mark_notified (.urlList [r.url]) = st.mark_notified (.single r) ∧
    (st.mark_notified (.urlList [r.url])).rows =
      st.rows.map (fun row => if row.unique_id == r.unique_id
        then { row with notified := true } else row) ∧
    ∃ row, row ∈ st.rows ∧ row.unique_id = r.unique_id := by
  refine ⟨rfl, rfl, rfl, ?_⟩
  unfold StorageState.existsBid at hin
  obtain ⟨row, hrow, hbeq⟩ := List.any_eq_true.mp hin
  exact ⟨row, hrow, by simpa using hbeq⟩

/-- Witness for C10 at a one-row store holding the record. -/
theorem StorageState.mark_notified_forms_witness :
    (StorageState.mk [⟨BidInfo.unique_id ⟨"t", "http://x/9", "d", "s", "", ""⟩,
        "t", "http://x/9", "d", "s", "", "", false, 5⟩]).mark_notified
      (.urlList ["http://x/9"]) =
    (StorageState.mk [⟨BidInfo.unique_id ⟨"t", "http://x/9", "d", "s", "", ""⟩,
        "t", "http://x/9", "d", "s", "", "", false, 5⟩]).mark_notified
      (.bidList [⟨"t", "http://x/9", "d", "s", "", ""⟩]) ∧
    (StorageState.mk [⟨BidInfo.unique_id ⟨"t", "http://x/9", "d", "s", "", ""⟩,
        "t", "http://x/9", "d", "s", "", "", false, 5⟩]).mark_notified
      (.urlList ["http://x/9"]) =
    (StorageState.mk [⟨BidInfo.unique_id ⟨"t", "http://x/9", "d", "s", "", ""⟩,
        "t", "http://x/9", "d", "s", "", "", false, 5⟩]).mark_notified
      (.single ⟨"t", "http://x/9", "d", "s", "", ""⟩) ∧
    ((StorageState.mk [⟨BidInfo.unique_id ⟨"t", "http://x/9", "d", "s", "", ""⟩,
        "t", "http://x/9", "d", "s", "", "", false, 5⟩]).mark_notified
      (.urlList ["http://x/9"])).rows =
    (StorageState.mk [⟨BidInfo.unique_id ⟨"t", "http://x/9", "d", "s", "", ""⟩,
        "t", "http://x/9", "d", "s", "", "", false, 5⟩]).rows.map
      (fun row => if row.unique_id == BidInfo.unique_id ⟨"t", "http://x/9", "d", "s", "", ""⟩
        then { row with notified := true } else row) ∧
    ∃ row, row ∈ (StorageState.mk [⟨BidInfo.unique_id ⟨"t", "http://x/9", "d", "s", "", ""⟩,
        "t", "http://x/9", "d", "s", "", "", false, 5⟩]).rows ∧
      row.unique_id = BidInfo.unique_id ⟨"t", "http://x/9", "d", "s", "", ""⟩ :=
  StorageState.mark_notified_forms
    ⟨[⟨BidInfo.unique_id ⟨"t", "http://x/9", "d", "s", "", ""⟩,
      "t", "http://x/9", "d", "s", "", "", false, 5⟩]⟩
    ⟨"t", "http://x/9", "d", "s", "", ""⟩ (by simp [StorageState.existsBid])

/-- Claim C9, counterexample.  In a store with two unnotified rows inserted
at timestamps 1 then 2, `get_unnotified` (a `SELECT` with no `ORDER BY`)
returns them in insertion order — the most recently inserted row comes
last, not first, contradicting "ordered by insertion recency". -/
theorem StorageState.get_unnotified_order_counterexample :
    (StorageState.mk
      [⟨"ua", "t1", "http://x/1", "d", "s", "", "", false, 1⟩,
       ⟨"ub", "t2", "http://x/2", "d", "s", "", "", false, 2⟩]).get_unnotified =
      [⟨"t1", "http://x/1", "d", "s", "", ""⟩, ⟨"t2", "http://x/2", "d", "s", "", ""⟩] ∧
    (⟨"t1", "http://x/1", "d", "s", "", ""⟩ : BidInfo) ≠
      ⟨"t2", "http://x/2", "d", "s", "", ""⟩ := by
  refine ⟨rfl, by decide⟩

/-- Sorting rows with strictly increasing `created_at` by `created_at`
descending reverses them. -/
theorem mergeSort_strict_reverse (rows : List BidRow)
    (hmono : rows.Pairwise (fun a b => a.created_at < b.created_at)) :
    rows.mergeSort (fun a b => b.created_at ≤ a.created_at) = rows.reverse := by
  haveI : IsAntisymm BidRow (fun a b => b.created_at < a.created_at) :=
    ⟨fun a b hab hba => absurd (lt_trans hab hba) (lt_irrefl _)⟩
  apply List.eq_of_perm_of_sorted (r := fun a b : BidRow => b.created_at < a.created_at)
  · exact (List.mergeSort_perm rows _).trans (List.reverse_perm rows).symm
  · have hsorted := @List.sorted_mergeSort BidRow
      (fun a b : BidRow => decide (b.created_at ≤ a.created_at))
      (fun a b c hab hbc => by
        simp only [decide_eq_true_eq] at hab hbc ⊢
        omega)
      (fun a b => by
        simp only [Bool.or_eq_true, decide_eq_true_eq]
        omega)
      rows
    have hle : (rows.mergeSort (fun a b : BidRow => b.created_at ≤ a.created_at)).Pairwise
        (fun a b : BidRow => b.created_at ≤ a.created_at) :=
      hsorted.imp (fun h => by simpa using h)
    have hkeys : rows.Pairwise (fun a b : BidRow => a.created_at ≠ b.created_at) :=
      hmono.imp (fun h => Nat.ne_of_lt h)
    have hkeys' : (rows.mergeSort (fun a b : BidRow => b.created_at ≤ a.created_at)).Pairwise
        (fun a b : BidRow => a.created_at ≠ b.created_at) :=
      ((List.mergeSort_perm rows _).pairwise_iff (fun h => Ne.symm h)).mpr hkeys
    exact (hle.and hkeys').imp (fun h => lt_of_le_of_ne h.1 (Ne.symm h.2))
  · exact List.pairwise_reverse.mpr hmono

/-- Claim C9 (amended): for stores whose `created_at` timestamps strictly
increase with insertion order, `get_all` (ORDER BY `created_at` DESC)
returns the records most-recently-inserted first, while `get_unnotified`
(no ORDER BY) returns the unnotified records in insertion order (oldest
first). -/
theorem StorageState.read_order (st : StorageState)
    (hmono : st.rows.Pairwise (fun a b => a.created_at < b.created_at)) :
    st.get_all = st.rows.reverse.map BidRow.toBidInfo ∧
    st.get_unnotified = (st.rows.filter (fun r => !r.notified)).map BidRow.toBidInfo := by
  refine ⟨?_, rfl⟩
  unfold StorageState.get_all
  rw [mergeSort_strict_reverse st.rows hmono]

/-- Witness for the amended C9 theorem at the two-row store of the
counterexample. -/
theorem StorageState.read_order_witness :
    (StorageState.mk
      [⟨"ua", "t1", "http://x/1", "d", "s", "", "", false, 1⟩,
       ⟨"ub", "t2", "http://x/2", "d", "s", "", "", false, 2⟩]).get_all =
      (StorageState.mk
        [⟨"ua", "t1", "http://x/1", "d", "s", "", "", false, 1⟩,
         ⟨"ub", "t2", "http://x/2", "d", "s", "", "", false, 2⟩]).rows.reverse.map
        BidRow.toBidInfo ∧
    (StorageState.mk
      [⟨"ua", "t1", "http://x/1", "d", "s", "", "", false, 1⟩,
       ⟨"ub", "t2", "http://x/2", "d", "s", "", "", false, 2⟩]).get_unnotified =
      ((StorageState.mk
        [⟨"ua", "t1", "http://x/1", "d", "s", "", "", false, 1⟩,
         ⟨"ub", "t2", "http://x/2", "d", "s", "", "", false, 2⟩]).rows.filter
        (fun r => !r.notified)).map BidRow.toBidInfo :=
  StorageState.read_order
    ⟨[⟨"ua", "t1", "http://x/1", "d", "s", "", "", false, 1⟩,
      ⟨"ub", "t2", "http://x/2", "d", "s", "", "", false, 2⟩]⟩
    (by simp)

/-! ## Notification fanout isolation and marking (C4) -/

/-- Marking a batch of URLs notified is one pass over the table: each row
whose `unique_id` is the MD5 of one of the URLs gets `notified := true`,
every other row is untouched. -/
theorem foldl_setNotified_urls (urls : List String) (rows : List BidRow) :
    urls.foldl (fun rs u => setNotified rs (md5Hex (utf8Bytes u))) rows =
      rows.map (fun r =>
        if urls.any (fun u => r.unique_id == md5Hex (utf8Bytes u))
        then { r with notified := true } else r) := by
  induction urls generalizing rows with
  | nil => simp
  | cons u us ih =>
    rw [List.foldl_cons, ih]
    unfold setNotified
    rw [List.map_map]
    apply List.map_congr_left
    intro r _
    by_cases hu : (r.unique_id == md5Hex (utf8Bytes u)) = true
    · by_cases hus : us.any (fun v => r.unique_id == md5Hex (utf8Bytes v)) = true
      · simp [show r.unique_id = md5Hex (utf8Bytes u) from by simpa using hu, hus]
      · simp [show r.unique_id = md5Hex (utf8Bytes u) from by simpa using hu,
          show ¬∃ x ∈ us, r.unique_id = md5Hex (utf8Bytes x) from by simpa using hus]
    · simp [show ¬r.unique_id = md5Hex (utf8Bytes u) from by simpa using hu]

/-- The pair projection of one contact's attempts equals its eligible-pairs
entry, whatever the send oracle does. -/
theorem contactAttempts_pairs (cfg : NotifyCfg) (bids : List BidInfo)
    (send : Nat → Channel → SendR) (i : Nat) (c : Contact) :
    (contactAttempts cfg bids send i c).map (fun a => (a.contactIdx, a.channel)) =
      (if !c.enabled then []
       else
        (if emailEligible cfg c bids then [(i, Channel.email)] else []) ++
        (if smsEligible cfg c bids then [(i, Channel.sms)] else []) ++
        (if wechatEligible cfg c bids then [(i, Channel.wechat)] else []) ++
        (if voiceEligible cfg c bids then [(i, Channel.voice)] else [])) := by
  unfold contactAttempts
  by_cases he : (!c.enabled) = true
  · simp [he]
  · have he' : (!c.enabled) = false := by simpa using he
    by_cases h1 : emailEligible cfg c bids = true <;>
      by_cases h2 : smsEligible cfg c bids = true <;>
        by_cases h3 : wechatEligible cfg c bids = true <;>
          by_cases h4 : voiceEligible cfg c bids = true <;>
            simp [he', h1, h2, h3, h4]

/-- The pair projection of the whole fanout is `eligiblePairs` — it does not
depend on the sends' outcomes. -/
theorem notifyFanout_pairs (cfg : NotifyCfg) (contacts : List Contact)
    (bids : List BidInfo) (send : Nat → Channel → SendR) :
    (notifyFanout cfg contacts bids send).map (fun a => (a.contactIdx, a.channel)) =
      eligiblePairs cfg contacts bids := by
  unfold notifyFanout eligiblePairs
  rw [List.map_flatMap]
  exact List.flatMap_congr (fun p _ => contactAttempts_pairs cfg bids send p.1 p.2)

/-- An empty batch generates no eligible pairs. -/
theorem eligiblePairs_nil (cfg : NotifyCfg) (contacts : List Contact) :
    eligiblePairs cfg contacts [] = [] := by
  unfold eligiblePairs
  rw [List.flatMap_eq_nil_iff]
  intro p _
  by_cases he : (!p.2.enabled) = true
  · simp [he]
  · cases hce : p.2.email <;>
      simp [show (!p.2.enabled) = false from by simpa using he, emailEligible,
        smsEligible, wechatEligible, voiceEligible, hce]

/-- Claim C4: the notification fanout attempts exactly the eligible
(contact, channel) pairs whatever the vendor sends return or raise (a
failure or exception in one pair never suppresses the remaining pairs), and
after the fanout the whole dispatched batch is marked notified in one pass:
every unnotified row is set `notified`, and no other row or field changes.
`hwf` states the store invariant that `unique_id` is the MD5 of the row's
URL (true of every row `save` produces). -/
theorem notifyPhase_isolates_and_marks (cfg : NotifyCfg) (contacts : List Contact)
    (st : StorageState) (send send' : Nat → Channel → SendR)
    (hwf : ∀ row ∈ st.rows, row.unique_id = md5Hex (utf8Bytes row.url)) :
    ((notifyPhase cfg contacts st send).attempts.map (fun a => (a.contactIdx, a.channel)) =
      eligiblePairs cfg contacts st.get_unnotified) ∧
    ((notifyPhase cfg contacts st send).attempts.map (fun a => (a.contactIdx, a.channel)) =
      (notifyPhase cfg contacts st send').attempts.map (fun a => (a.contactIdx, a.channel))) ∧
    ((notifyPhase cfg contacts st send).store.rows =
      st.rows.map (fun r =>
        if (st.get_unnotified.map BidInfo.url).any
            (fun u => r.unique_id == md5Hex (utf8Bytes u))
        then { r with notified := true } else r)) ∧
    (∀ row ∈ st.rows, row.notified = false →
      { row with notified := true } ∈ (notifyPhase cfg contacts st send).store.rows) := by
  by_cases hemp : st.get_unnotified.isEmpty = true
  · have hnil : st.get_unnotified = [] := by simpa using hemp
    have hphase : ∀ s : Nat → Channel → SendR, notifyPhase cfg contacts st s = ⟨[], st⟩ := by
      intro s
      simp only [notifyPhase]
      rw [hemp]
      rfl
    have hfnil : (st.rows.filter (fun r => !r.notified)) = [] := by
      have := hnil
      unfold StorageState.get_unnotified at this
      exact List.map_eq_nil_iff.mp this
    refine ⟨?_, ?_, ?_, ?_⟩
    · rw [hphase send, hnil, eligiblePairs_nil]
      rfl
    · rw [hphase send, hphase send']
    · rw [hphase send, hnil]
      simp
    · intro row hrow hnot
      exfalso
      have : row ∈ st.rows.filter (fun r => !r.notified) :=
        List.mem_filter.mpr ⟨hrow, by simp [hnot]⟩
      rw [hfnil] at this
      cases this
  · have hphase : ∀ s : Nat → Channel → SendR, notifyPhase cfg contacts st s =
        ⟨notifyFanout cfg contacts st.get_unnotified s,
         st.mark_notified (.urlList (st.get_unnotified.map BidInfo.url))⟩ := by
      intro s
      simp only [notifyPhase]
      rw [show st.get_unnotified.isEmpty = false from by simpa using hemp]
      rfl
    have hstore : (st.mark_notified (.urlList (st.get_unnotified.map BidInfo.url))).rows =
        st.rows.map (fun r =>
          if (st.get_unnotified.map BidInfo.url).any
              (fun u => r.unique_id == md5Hex (utf8Bytes u))
          then { r with notified := true } else r) := by
      unfold StorageState.mark_notified
      exact foldl_setNotified_urls (st.get_unnotified.map BidInfo.url) st.rows
    refine ⟨?_, ?_, ?_, ?_⟩
    · rw [hphase send]
      exact notifyFanout_pairs cfg contacts st.get_unnotified send
    · rw [hphase send, hphase send']
      rw [notifyFanout_pairs, notifyFanout_pairs]
    · rw [hphase send]
      exact hstore
    · intro row hrow hnot
      rw [hphase send]
      show _ ∈ (st.mark_notified (.urlList (st.get_unnotified.map BidInfo.url))).rows
      rw [hstore]
      have hurl : row.url ∈ st.get_unnotified.map BidInfo.url := by
        have hbid : row.toBidInfo ∈ st.get_unnotified := by
          unfold StorageState.get_unnotified
          exact List.mem_map_of_mem _ (List.mem_filter.mpr ⟨hrow, by simp [hnot]⟩)
        exact List.mem_map_of_mem _ hbid
      have hany : ((st.get_unnotified.map BidInfo.url).any
          (fun u => row.unique_id == md5Hex (utf8Bytes u))) = true :=
        List.any_eq_true.mpr ⟨row.url, hurl, by simp [hwf row hrow]⟩
      have hmem := List.mem_map_of_mem (fun r =>
          if (st.get_unnotified.map BidInfo.url).any
              (fun u => r.unique_id == md5Hex (utf8Bytes u))
          then { r with notified := true } else r) hrow
      simpa [hany] using hmem

/-- Witness for C4: one contact with only the WeChat channel configured, a
one-row store, and a send oracle that raises; the failing send still leaves
the pair attempted and the record marked. -/
theorem notifyPhase_isolates_and_marks_witness :
    ((notifyPhase ⟨false, false, true, false, none, none⟩ [⟨"alice", true, none, none, some "tok"⟩]
        ⟨[⟨BidInfo.unique_id ⟨"t", "http://w/1", "d", "s", "", ""⟩,
          "t", "http://w/1", "d", "s", "", "", false, 1⟩]⟩
        (fun _ _ => .exn "boom")).attempts.map (fun a => (a.contactIdx, a.channel)) =
      eligiblePairs ⟨false, false, true, false, none, none⟩
        [⟨"alice", true, none, none, some "tok"⟩]
        (StorageState.mk [⟨BidInfo.unique_id ⟨"t", "http://w/1", "d", "s", "", ""⟩,
          "t", "http://w/1", "d", "s", "", "", false, 1⟩]).get_unnotified) ∧
    ((notifyPhase ⟨false, false, true, false, none, none⟩ [⟨"alice", true, none, none, some "tok"⟩]
        ⟨[⟨BidInfo.unique_id ⟨"t", "http://w/1", "d", "s", "", ""⟩,
          "t", "http://w/1", "d", "s", "", "", false, 1⟩]⟩
        (fun _ _ => .exn "boom")).attempts.map (fun a => (a.contactIdx, a.channel)) =
      (notifyPhase ⟨false, false, true, false, none, none⟩ [⟨"alice", true, none, none, some "tok"⟩]
        ⟨[⟨BidInfo.unique_id ⟨"t", "http://w/1", "d", "s", "", ""⟩,
          "t", "http://w/1", "d", "s", "", "", false, 1⟩]⟩
        (fun _ _ => .ok)).attempts.map (fun a => (a.contactIdx, a.channel))) ∧
    ((notifyPhase ⟨false, false, true, false, none, none⟩ [⟨"alice", true, none, none, some "tok"⟩]
        ⟨[⟨BidInfo.unique_id ⟨"t", "http://w/1", "d", "s", "", ""⟩,
          "t", "http://w/1", "d", "s", "", "", false, 1⟩]⟩
        (fun _ _ => .exn "boom")).store.rows =
      (StorageState.mk [⟨BidInfo.unique_id ⟨"t", "http://w/1", "d", "s", "", ""⟩,
          "t", "http://w/1", "d", "s", "", "", false, 1⟩]).rows.map (fun r =>
        if ((StorageState.mk [⟨BidInfo.unique_id ⟨"t", "http://w/1", "d", "s", "", ""⟩,
            "t", "http://w/1", "d", "s", "", "", false, 1⟩]).get_unnotified.map BidInfo.url).any
            (fun u => r.unique_id == md5Hex (utf8Bytes u))
        then { r with notified := true } else r)) ∧
    (∀ row ∈ (StorageState.mk [⟨BidInfo.unique_id ⟨"t", "http://w/1", "d", "s", "", ""⟩,
        "t", "http://w/1", "d", "s", "", "", false, 1⟩]).rows, row.notified = false →
      { row with notified := true } ∈
        (notifyPhase ⟨false, false, true, false, none, none⟩
          [⟨"alice", true, none, none, some "tok"⟩]
          ⟨[⟨BidInfo.unique_id ⟨"t", "http://w/1", "d", "s", "", ""⟩,
            "t", "http://w/1", "d", "s", "", "", false, 1⟩]⟩
          (fun _ _ => .exn "boom")).store.rows) :=
  notifyPhase_isolates_and_marks ⟨false, false, true, false, none, none⟩
    [⟨"alice", true, none, none, some "tok"⟩]
    ⟨[⟨BidInfo.unique_id ⟨"t", "http://w/1", "d", "s", "", ""⟩,
      "t", "http://w/1", "d", "s", "", "", false, 1⟩]⟩
    (fun _ _ => .exn "boom") (fun _ _ => .ok)
    (fun row hr => by
      rcases List.mem_singleton.mp hr with rfl
      rfl)

/-! ## Round orchestration under the stop signal (C6) -/

/-- With the stop signal never set, `crawl` visits every URL of the
adapter. -/
theorem crawlModelT_noStop_visits (env : CrawlEnv) :
    (crawlModelT env (fun _ => false)).2 = env.urls.length := by
  simp only [crawlModelT]
  rw [crawlFrom_noStop env env.urls.length 0 [] 0 (by omega) (by omega)]

/-- The classify-and-persist fold only appends rows; it preserves the
URL-hash well-formedness of the store; and every record it has counted as
new has an unnotified row in the store with exactly its fields. -/
theorem saveMatched_inv (m : KeywordMatcher) (bids : List BidInfo) :
    ∀ st clock acc,
      (∀ row ∈ st.rows, row ∈ (saveMatched m bids st clock acc).1.rows) ∧
      ((∀ row ∈ st.rows, row.unique_id = md5Hex (utf8Bytes row.url)) →
        ∀ row ∈ (saveMatched m bids st clock acc).1.rows,
          row.unique_id = md5Hex (utf8Bytes row.url)) ∧
      ((∀ b ∈ acc, ∃ row ∈ st.rows, row.toBidInfo = b ∧ row.notified = false) →
        ∀ b ∈ (saveMatched m bids st clock acc).2.2,
          ∃ row ∈ (saveMatched m bids st clock acc).1.rows,
            row.toBidInfo = b ∧ row.notified = false) := by
  induction bids with
  | nil =>
    intro st clock acc
    exact ⟨fun row h => h, fun hwf => hwf, fun h => h⟩
  | cons bid bids ih =>
    intro st clock acc
    by_cases hc : ((m.match_any [bid.title, bid.content]).matched && !st.existsBid bid) = true
    · have hex : st.existsBid bid = false := by
        rcases Bool.and_eq_true_iff.mp hc with ⟨_, hnb⟩
        simpa using hnb
      have hsave : st.save bid false clock =
          (true, ⟨st.rows ++ [⟨bid.unique_id, bid.title, bid.url, bid.publish_date,
            bid.source, bid.content, bid.purchaser, false, clock⟩]⟩) := by
        unfold StorageState.save
        rw [hex]
        rfl
      have hstep : saveMatched m (bid :: bids) st clock acc =
          saveMatched m bids
            ⟨st.rows ++ [⟨bid.unique_id, bid.title, bid.url, bid.publish_date,
              bid.source, bid.content, bid.purchaser, false, clock⟩]⟩
            (clock + 1) (acc ++ [bid]) := by
        unfold saveMatched
        rw [List.foldl_cons]
        congr 1
        rw [if_pos hc, hsave]
      rw [hstep]
      obtain ⟨ihgrow, ihwf, ihinv⟩ := ih
        ⟨st.rows ++ [⟨bid.unique_id, bid.title, bid.url, bid.publish_date,
          bid.source, bid.content, bid.purchaser, false, clock⟩]⟩
        (clock + 1) (acc ++ [bid])
      refine ⟨?_, ?_, ?_⟩
      · intro row hrow
        exact ihgrow row (List.mem_append_left _ hrow)
      · intro hwf
        apply ihwf
        intro row hrow
        rcases List.mem_append.mp hrow with h | h
        · exact hwf row h
        · rcases List.mem_singleton.mp h with rfl
          rfl
      · intro hinv
        apply ihinv
        intro b hb
        rcases List.mem_append.mp hb with h | h
        · obtain ⟨row, hrow, hto, hnot⟩ := hinv b h
          exact ⟨row, List.mem_append_left _ hrow, hto, hnot⟩
        · rcases List.mem_singleton.mp h with rfl
          exact ⟨⟨b.unique_id, b.title, b.url, b.publish_date, b.source, b.content,
            b.purchaser, false, clock⟩,
            List.mem_append_right _ (List.mem_singleton.mpr rfl), rfl, rfl⟩
    · have hstep : saveMatched m (bid :: bids) st clock acc =
          saveMatched m bids st clock acc := by
        unfold saveMatched
        rw [List.foldl_cons]
        congr 1
        rw [if_neg (by simpa using hc)]
      rw [hstep]
      exact ih st clock acc

/-- If the stop signal is unset at every adapter boundary before `k` and set
at boundary `k`, the round from boundary `i ≤ k` processes exactly adapters
`i … k - 1`, reports the round interrupted, keeps the store well-formed, and
leaves every record counted as new in the store as an unnotified row. -/
theorem runRoundFrom_stop (m : KeywordMatcher) (adapters : List Adapter)
    (sigA : Nat → Bool) (sigU : Nat → Nat → Bool) (k : Nat)
    (hk : k < adapters.length) (hA : ∀ i, i < k → sigA i = false) (hAk : sigA k = true) :
    ∀ n i st clock invoked acc, k - i = n → i ≤ k →
      (runRoundFrom m adapters sigA sigU i st clock invoked acc).invoked
          = invoked ++ List.range' i (k - i) ∧
      (runRoundFrom m adapters sigA sigU i st clock invoked acc).interrupted = true ∧
      ((∀ row ∈ st.rows, row.unique_id = md5Hex (utf8Bytes row.url)) →
        ∀ row ∈ (runRoundFrom m adapters sigA sigU i st clock invoked acc).store.rows,
          row.unique_id = md5Hex (utf8Bytes row.url)) ∧
      ((∀ b ∈ acc, ∃ row ∈ st.rows, row.toBidInfo = b ∧ row.notified = false) →
        ∀ b ∈ (runRoundFrom m adapters sigA sigU i st clock invoked acc).new_bids,
          ∃ row ∈ (runRoundFrom m adapters sigA sigU i st clock invoked acc).store.rows,
            row.toBidInfo = b ∧ row.notified = false) := by
  intro n
  induction n with
  | zero =>
    intro i st clock invoked acc hn hi
    have hik : i = k := by omega
    subst hik
    rw [runRoundFrom, dif_pos hk, if_pos hAk]
    refine ⟨by simp, rfl, fun h => h, fun h => h⟩
  | succ n ihn =>
    intro i st clock invoked acc hn hi
    have hik : i < k := by omega
    have hilen : i < adapters.length := by omega
    rw [runRoundFrom, dif_pos hilen, if_neg (by simp [hA i hik])]
    obtain ⟨ha, hb, hc, hd⟩ := ihn (i + 1)
      (saveMatched m ((crawlModel (adapters.getD i ⟨emptyEnv⟩).env (sigU i)).getD [])
        st clock acc).1
      (saveMatched m ((crawlModel (adapters.getD i ⟨emptyEnv⟩).env (sigU i)).getD [])
        st clock acc).2.1
      (invoked ++ [i])
      (saveMatched m ((crawlModel (adapters.getD i ⟨emptyEnv⟩).env (sigU i)).getD [])
        st clock acc).2.2
      (by omega) (by omega)
    obtain ⟨hgrow, hwfp, hinvp⟩ := saveMatched_inv m
      ((crawlModel (adapters.getD i ⟨emptyEnv⟩).env (sigU i)).getD []) st clock acc
    refine ⟨?_, hb, ?_, ?_⟩
    · rw [ha, List.append_assoc]
      congr 1
      have h1 : k - i = (k - (i + 1)) + 1 := by omega
      rw [h1]
      rfl
    · intro hwf
      exact hc (hwfp hwf)
    · intro hinv
      exact hd (hinvp hinv)

/-- The round result is passed through `doCrawlPost` unchanged. -/
theorem doCrawlPost_round (cfg : NotifyCfg) (contacts : List Contact)
    (send : Nat → Channel → SendR) (r : RoundOut) (s : Bool) :
    (doCrawlPost cfg contacts send r s).round = r := by
  unfold doCrawlPost
  split
  · rfl
  · rfl

/-- When the round produced new records, `_do_crawl` always runs the
notification phase — stopped or not. -/
theorem doCrawlPost_store_of_new (cfg : NotifyCfg) (contacts : List Contact)
    (send : Nat → Channel → SendR) (r : RoundOut) (s : Bool)
    (h : r.new_bids ≠ []) :
    (doCrawlPost cfg contacts send r s).store =
      (notifyPhase cfg contacts r.store send).store := by
  unfold doCrawlPost
  rw [if_neg (by simp [h])]

/-- Claim C6 (the adapter loop of `MonitorCore.run_once` is modelled from
the spec; the URL loop and `_do_crawl` notification logic are the real
embeddings): if the stop signal is set before adapter `k` is started (and
was unset at every earlier adapter and URL boundary), the round invokes
exactly adapters `0 … k - 1` in order — adapters from `k` on are never
invoked — and is reported interrupted; each earlier adapter was processed
fully (every URL visited); and every record stored during the round is kept
as an unnotified row of the round's store and still dispatched: after the
notification phase its row is marked notified.  The signal is only sampled
at adapter and URL boundaries, never mid-item. -/
theorem stop_signal_round (m : KeywordMatcher) (adapters : List Adapter)
    (sigA : Nat → Bool) (sigU : Nat → Nat → Bool) (st0 : StorageState) (clock : Nat)
    (cfg : NotifyCfg) (contacts : List Contact) (send : Nat → Channel → SendR)
    (k : Nat) (hk : k < adapters.length)
    (hA : ∀ i, i < k → sigA i = false) (hAk : sigA k = true)
    (hU : ∀ i j, i < k → sigU i j = false)
    (hwf0 : ∀ row ∈ st0.rows, row.unique_id = md5Hex (utf8Bytes row.url)) :
    (doCrawl m adapters sigA sigU st0 clock cfg contacts send).round.invoked
        = List.range k ∧
    (doCrawl m adapters sigA sigU st0 clock cfg contacts send).round.interrupted = true ∧
    (∀ i, i < k → (crawlModelT (adapters.getD i ⟨emptyEnv⟩).env (sigU i)).2
        = (adapters.getD i ⟨emptyEnv⟩).env.urls.length) ∧
    (∀ b ∈ (doCrawl m adapters sigA sigU st0 clock cfg contacts send).round.new_bids,
      b ∈ (doCrawl m adapters sigA sigU st0 clock cfg
            contacts send).round.store.get_unnotified ∧
      ∃ row ∈ (doCrawl m adapters sigA sigU st0 clock cfg contacts send).store.rows,
        row.unique_id = b.unique_id ∧ row.notified = true) := by
  obtain ⟨hinv, hint, hwfr, hkept⟩ :=
    runRoundFrom_stop m adapters sigA sigU k hk hA hAk k 0 st0 clock [] []
      (by omega) (by omega)
  have hround : (doCrawl m adapters sigA sigU st0 clock cfg contacts send).round =
      runRoundFrom m adapters sigA sigU 0 st0 clock [] [] :=
    doCrawlPost_round cfg contacts send _ _
  have hwfstore : ∀ row ∈ (runRoundFrom m adapters sigA sigU 0 st0 clock [] []).store.rows,
      row.unique_id = md5Hex (utf8Bytes row.url) := hwfr hwf0
  have hkept' := hkept (fun b hb => absurd hb (List.not_mem_nil _))
  refine ⟨?_, ?_, ?_, ?_⟩
  · rw [hround, hinv, List.nil_append, Nat.sub_zero, List.range_eq_range']
  · rw [hround, hint]
  · intro i hi
    have hsig : sigU i = fun _ => false := funext (fun j => hU i j hi)
    rw [hsig, crawlModelT_noStop_visits]
  · intro b hb
    rw [hround] at hb
    obtain ⟨row, hrow, hto, hnot⟩ := hkept' b hb
    have hmem_unnot : b ∈ (runRoundFrom m adapters sigA sigU 0 st0
        clock [] []).store.get_unnotified := by
      unfold StorageState.get_unnotified
      rw [← hto]
      exact List.mem_map_of_mem _ (List.mem_filter.mpr ⟨hrow, by simp [hnot]⟩)
    have hne : (runRoundFrom m adapters sigA sigU 0 st0 clock [] []).new_bids ≠ [] :=
      fun hnil => absurd (hnil ▸ hb) (List.not_mem_nil _)
    have hstore : (doCrawl m adapters sigA sigU st0 clock cfg contacts send).store =
        (notifyPhase cfg contacts
          (runRoundFrom m adapters sigA sigU 0 st0 clock [] []).store send).store :=
      doCrawlPost_store_of_new cfg contacts send _ _ hne
    have hmarked := (notifyPhase_isolates_and_marks cfg contacts
      (runRoundFrom m adapters sigA sigU 0 st0 clock [] []).store send send
      hwfstore).2.2.2 row hrow hnot
    have hurl : row.url = b.url := by
      rw [← hto]
      rfl
    have huid : row.unique_id = b.unique_id := by
      rw [hwfstore row hrow, hurl]
      rfl
    refine ⟨by rw [hround]; exact hmem_unnot, ?_⟩
    rw [hstore]
    exact ⟨{ row with notified := true }, hmarked, huid, rfl⟩
/-- Witness for C6: two adapters with the stop signal set before adapter
index 1 — adapter 0 runs fully and its record survives, adapter 1 is never
invoked. -/
theorem stop_signal_round_witness :
    (doCrawl (KeywordMatcher.init ["光伏"] [] [])
      [⟨⟨["u0"], fun _ => some ("p"),
         fun _ _ => Except.ok [⟨"光伏采购", "http://a/1", "d", "s1", "", ""⟩]⟩⟩,
       ⟨⟨["u1"], fun _ => none, fun _ _ => Except.error ()⟩⟩]
      (fun i => decide (1 ≤ i)) (fun _ _ => false) ⟨[]⟩ 0
      ⟨false, false, false, false, none, none⟩ [] (fun _ _ => SendR.ok)).round.invoked = List.range 1 ∧
    (doCrawl (KeywordMatcher.init ["光伏"] [] [])
      [⟨⟨["u0"], fun _ => some ("p"),
         fun _ _ => Except.ok [⟨"光伏采购", "http://a/1", "d", "s1", "", ""⟩]⟩⟩,
       ⟨⟨["u1"], fun _ => none, fun _ _ => Except.error ()⟩⟩]
      (fun i => decide (1 ≤ i)) (fun _ _ => false) ⟨[]⟩ 0
      ⟨false, false, false, false, none, none⟩ [] (fun _ _ => SendR.ok)).round.interrupted = true ∧
    (∀ i, i < 1 →
      (crawlModelT ((([⟨⟨["u0"], fun _ => some ("p"),
           fun _ _ => Except.ok [⟨"光伏采购", "http://a/1", "d", "s1", "", ""⟩]⟩⟩,
         ⟨⟨["u1"], fun _ => none, fun _ _ => Except.error ()⟩⟩] : List Adapter).getD i
            ⟨emptyEnv⟩).env)
          ((fun _ _ => false) i)).2 =
        ((([⟨⟨["u0"], fun _ => some ("p"),
           fun _ _ => Except.ok [⟨"光伏采购", "http://a/1", "d", "s1", "", ""⟩]⟩⟩,
         ⟨⟨["u1"], fun _ => none, fun _ _ => Except.error ()⟩⟩] : List Adapter).getD i
            ⟨emptyEnv⟩).env).urls.length) ∧
    (∀ b ∈ (doCrawl (KeywordMatcher.init ["光伏"] [] [])
      [⟨⟨["u0"], fun _ => some ("p"),
         fun _ _ => Except.ok [⟨"光伏采购", "http://a/1", "d", "s1", "", ""⟩]⟩⟩,
       ⟨⟨["u1"], fun _ => none, fun _ _ => Except.error ()⟩⟩]
      (fun i => decide (1 ≤ i)) (fun _ _ => false) ⟨[]⟩ 0
      ⟨false, false, false, false, none, none⟩ [] (fun _ _ => SendR.ok)).round.new_bids,
      b ∈ (doCrawl (KeywordMatcher.init ["光伏"] [] [])
      [⟨⟨["u0"], fun _ => some ("p"),
         fun _ _ => Except.ok [⟨"光伏采购", "http://a/1", "d", "s1", "", ""⟩]⟩⟩,
       ⟨⟨["u1"], fun _ => none, fun _ _ => Except.error ()⟩⟩]
      (fun i => decide (1 ≤ i)) (fun _ _ => false) ⟨[]⟩ 0
      ⟨false, false, false, false, none, none⟩ [] (fun _ _ => SendR.ok)).round.store.get_unnotified ∧
      ∃ row ∈ (doCrawl (KeywordMatcher.init ["光伏"] [] [])
      [⟨⟨["u0"], fun _ => some ("p"),
         fun _ _ => Except.ok [⟨"光伏采购", "http://a/1", "d", "s1", "", ""⟩]⟩⟩,
       ⟨⟨["u1"], fun _ => none, fun _ _ => Except.error ()⟩⟩]
      (fun i => decide (1 ≤ i)) (fun _ _ => false) ⟨[]⟩ 0
      ⟨false, false, false, false, none, none⟩ [] (fun _ _ => SendR.ok)).store.rows,
        row.unique_id = b.unique_id ∧ row.notified = true) :=
  stop_signal_round (KeywordMatcher.init ["光伏"] [] [])
    [⟨⟨["u0"], fun _ => some ("p"),
       fun _ _ => Except.ok [⟨"光伏采购", "http://a/1", "d", "s1", "", ""⟩]⟩⟩,
     ⟨⟨["u1"], fun _ => none, fun _ _ => Except.error ()⟩⟩]
    (fun i => decide (1 ≤ i)) (fun _ _ => false) ⟨[]⟩ 0
    ⟨false, false, false, false, none, none⟩ [] (fun _ _ => SendR.ok) 1
    (by simp)
    (fun i hi => decide_eq_false (by omega))
    (by decide)
    (fun i j hi => rfl)
    (fun row h => absurd h (List.not_mem_nil _))

end BidMonitor
